import Mathlib

/-!
# SPDK vhost core (`lib/vhost/vhost.c`): shallow embedding and verified properties

C machine integers are natural numbers with explicit wrap-around
(`% 2^16`, `% 2^32`, `% 2^64`).  Arrays living in guest or process memory are
lists, a C string is the list of its characters before the terminating NUL,
a nullable pointer is an `Option`.
-/

namespace Vhost

/-! ## Data model -/

/-- One entry of the descriptor table (`struct vring_desc`). -/
structure vring_desc where
  addr : Nat
  len : Nat
  flags : Nat
  next : Nat
deriving DecidableEq, Repr

/-- The available ring (`struct vring_avail`): guest-written. -/
structure vring_avail where
  flags : Nat
  idx : Nat
  ring : List Nat
deriving DecidableEq, Repr

/-- One entry of the used ring (`struct vring_used_elem`). -/
structure vring_used_elem where
  id : Nat
  len : Nat
deriving DecidableEq, Repr

/-- The used ring (`struct vring_used`): device-written. -/
structure vring_used where
  flags : Nat
  idx : Nat
  ring : List vring_used_elem
deriving DecidableEq, Repr

/-- A virtqueue as handed over by the transport (`struct rte_vhost_vring`).
`callfd` is the notification channel, modelled by the list of values written
to it with `eventfd_write`, most recent first. -/
structure rte_vhost_vring where
  desc : List vring_desc
  avail : vring_avail
  used : vring_used
  size : Nat
  last_avail_idx : Nat
  last_used_idx : Nat
  callfd : List Nat
deriving DecidableEq, Repr

/-- The fields of `struct spdk_vhost_dev` read by this file.  `self` is the
address of the object: two device pointers are equal when their `self` agree.
A registry slot holds the object its pointer points to, address included, so
that equal pointers are equal values.
`name = none` is a NULL name pointer, `lcore = -1` means no assigned core. -/
structure spdk_vhost_dev where
  self : Nat
  name : Option (List Char)
  vid : Int
  lcore : Int
  negotiated_features : Nat
  cpumask : Nat
  task_cnt : Nat
deriving DecidableEq, Repr

/-- Type invariant of a queue: the 16-bit fields are below `2^16` and the two
rings have `size` slots each. -/
def vring_wf (vq : rte_vhost_vring) : Prop :=
  vq.size < 65536 ∧ vq.avail.idx < 65536 ∧ vq.last_avail_idx < 65536 ∧
  vq.last_used_idx < 65536 ∧ vq.avail.ring.length = vq.size ∧
  vq.used.ring.length = vq.size

instance (vq : rte_vhost_vring) : Decidable (vring_wf vq) :=
  inferInstanceAs (Decidable (_ ∧ _ ∧ _ ∧ _ ∧ _ ∧ _))

/-! ## Ring engine -/

/-- The value `(uint16_t)(vq->size - 1)`. -/
def size_mask (vq : rte_vhost_vring) : Nat :=
  (vq.size + 65536 - 1) % 65536

/-- The loop `for (i = 0; i < count; i++) reqs[i] = ring[(last_idx + i) & size_mask]`
of `spdk_vhost_vq_avail_ring_get`, run for `i = 0 .. count - 1` on the
caller's buffer `reqs`. -/
def avail_ring_copy (ring : List Nat) (last_idx mask count : Nat) (reqs : List Nat) :
    List Nat :=
  (List.range count).foldl
    (fun buf i => buf.set i (ring.getD ((last_idx + i) &&& mask) 0)) reqs

/-- The function `spdk_vhost_vq_avail_ring_get(vq, reqs, reqs_len)`: returns the queue
after the call, the buffer `reqs` after the call and the returned count.
The difference `avail_idx - last_idx` is computed in `int` (two's complement,
32 bits) before it is masked. -/
def spdk_vhost_vq_avail_ring_get (vq : rte_vhost_vring) (reqs : List Nat) (reqs_len : Nat) :
    rte_vhost_vring × List Nat × Nat :=
  let mask := size_mask vq
  let last_idx := vq.last_avail_idx
  let avail_idx := vq.avail.idx
  let count := (min (((avail_idx + 2 ^ 32 - last_idx) % 2 ^ 32) &&& mask) reqs_len) % 65536
  if count = 0 then
    (vq, reqs, 0)
  else
    ({ vq with last_avail_idx := (vq.last_avail_idx + count) % 65536 },
     avail_ring_copy vq.avail.ring last_idx mask count reqs, count)

/-- Modelled from the spec: the feature bit "notify on empty" is a constant of
the virtio headers, which are not under src/; `VIRTIO_F_NOTIFY_ON_EMPTY` is
bit 24 of the feature word. -/
def VIRTIO_F_NOTIFY_ON_EMPTY : Nat := 24

/-- Modelled from the spec: the available-ring flag "no interrupt" is a
constant of the virtio headers, which are not under src/. -/
def VRING_AVAIL_F_NO_INTERRUPT : Nat := 1

/-- Modelled from the spec: the descriptor flag "has next" is a constant of
the virtio headers, which are not under src/. -/
def VRING_DESC_F_NEXT : Nat := 1

/-- Modelled from the spec: the descriptor flag "write direction" is a
constant of the virtio headers, which are not under src/. -/
def VRING_DESC_F_WRITE : Nat := 2

/-- The function `spdk_vhost_vq_should_notify(vdev, vq)`. -/
def spdk_vhost_vq_should_notify (vdev : spdk_vhost_dev) (vq : rte_vhost_vring) : Bool :=
  if (vdev.negotiated_features &&& ((1 <<< VIRTIO_F_NOTIFY_ON_EMPTY) % 2 ^ 64) ≠ 0) ∧
      vq.avail.idx = vq.last_avail_idx then
    true
  else
    !(vq.avail.flags &&& VRING_AVAIL_F_NO_INTERRUPT != 0)

/-- The function `spdk_vhost_vq_get_desc(vq, req_idx)`: the descriptor is returned as its
index into `vq->desc`; `none` is a failed `assert(req_idx < vq->size)`. -/
def spdk_vhost_vq_get_desc (vq : rte_vhost_vring) (req_idx : Nat) : Option Nat :=
  if req_idx < vq.size then some req_idx else none

/-- The function `spdk_vhost_vq_used_ring_enqueue(vdev, vq, id, len)`. -/
def spdk_vhost_vq_used_ring_enqueue (vdev : spdk_vhost_dev) (vq : rte_vhost_vring)
    (id len : Nat) : rte_vhost_vring :=
  let mask := size_mask vq
  let last_idx := vq.last_used_idx
  let new_last := (vq.last_used_idx + 1) % 65536
  let last_idx := last_idx &&& mask
  let ring := vq.used.ring.set last_idx { id := id, len := len }
  let vq1 : rte_vhost_vring :=
    { vq with last_used_idx := new_last, used := { vq.used with ring := ring, idx := new_last } }
  if spdk_vhost_vq_should_notify vdev vq1 then
    { vq1 with callfd := 1 :: vq1.callfd }
  else
    vq1

/-- The function `spdk_vhost_vring_desc_has_next(cur_desc)`. -/
def spdk_vhost_vring_desc_has_next (cur_desc : vring_desc) : Bool :=
  cur_desc.flags &&& VRING_DESC_F_NEXT != 0

/-- The function `spdk_vhost_vring_desc_get_next(vq_desc, cur_desc)`: the returned pointer
`&vq_desc[cur_desc->next]` is given as the index `cur_desc->next`; `none` is a
failed `assert(spdk_vhost_vring_desc_has_next(cur_desc))`. -/
def spdk_vhost_vring_desc_get_next (_vq_desc : List vring_desc) (cur_desc : vring_desc) :
    Option Nat :=
  if spdk_vhost_vring_desc_has_next cur_desc then some cur_desc.next else none

/-- The function `spdk_vhost_vring_desc_is_wr(cur_desc)`. -/
def spdk_vhost_vring_desc_is_wr (cur_desc : vring_desc) : Bool :=
  cur_desc.flags &&& VRING_DESC_F_WRITE != 0

/-- A caller that starts at the descriptor with index `cur` and calls
`spdk_vhost_vring_desc_get_next` exactly `n` times, each time on the
descriptor returned by the call before.  The result lists the indices of the
descriptors returned, in order; `none` when an assertion fails or an index
lies outside the table. -/
def desc_walk (vq_desc : List vring_desc) : Nat → Nat → Option (List Nat)
  | _, 0 => some []
  | cur, n + 1 =>
    match vq_desc[cur]? with
    | none => none
    | some d =>
      match spdk_vhost_vring_desc_get_next vq_desc d with
      | none => none
      | some nxt =>
        match desc_walk vq_desc nxt n with
        | none => none
        | some rest => some (nxt :: rest)

/-- A constructed chain: the descriptors at the indices `idxs`, each with the
has-next flag set in its `flags` word (`flags & VRING_DESC_F_NEXT` non-zero)
and `next` pointing at the following index, the last one with the flag clear
(`flags & VRING_DESC_F_NEXT` zero). -/
def is_desc_chain (vq_desc : List vring_desc) : List Nat → Bool
  | [] => false
  | [a] =>
    match vq_desc[a]? with
    | none => false
    | some d => d.flags &&& VRING_DESC_F_NEXT == 0
  | a :: b :: rest =>
    match vq_desc[a]? with
    | none => false
    | some d =>
      d.flags &&& VRING_DESC_F_NEXT != 0 && d.next == b && is_desc_chain vq_desc (b :: rest)

/-- A caller that enqueues the completions `(id, len)` of `ps` one after the
other with `spdk_vhost_vq_used_ring_enqueue`. -/
def enqueue_all (vdev : spdk_vhost_dev) (vq : rte_vhost_vring) (ps : List (Nat × Nat)) :
    rte_vhost_vring :=
  ps.foldl (fun q p => spdk_vhost_vq_used_ring_enqueue vdev q p.1 p.2) vq

/-! ## Core load balancer -/

/-- The C constant `INT_MAX`. -/
def INT_MAX : Nat := 2147483647

/-- The scan `for (i = 0; i < RTE_MAX_LCORE && i < 64; i++)` of
`spdk_vhost_allocate_reactor`, run for `i = 0 .. bound - 1`; the state is
`(selected_core, min_ctrlrs)`. -/
def allocate_reactor_scan (g_num_ctrlrs : List Nat) (cpumask bound : Nat) : Nat × Nat :=
  (List.range bound).foldl
    (fun st i =>
      if ((1 <<< i) % 2 ^ 64) &&& cpumask = 0 then st
      else if g_num_ctrlrs.getD i 0 < st.2 then (i, g_num_ctrlrs.getD i 0)
      else st)
    (0, INT_MAX)

/-- The function `spdk_vhost_allocate_reactor(cpumask)` on the load table `g_num_ctrlrs`
(an array of `RTE_MAX_LCORE` 32-bit counters); `app_core_mask` is the value of
`spdk_app_get_core_mask()`.  Returns the core id and the table afterwards. -/
def spdk_vhost_allocate_reactor (RTE_MAX_LCORE app_core_mask : Nat) (g_num_ctrlrs : List Nat)
    (cpumask : Nat) : Nat × List Nat :=
  let cpumask := cpumask &&& app_core_mask
  if cpumask = 0 then
    (0, g_num_ctrlrs)
  else
    let selected_core := (allocate_reactor_scan g_num_ctrlrs cpumask (min RTE_MAX_LCORE 64)).1
    (selected_core,
      g_num_ctrlrs.set selected_core ((g_num_ctrlrs.getD selected_core 0 + 1) % 2 ^ 32))

/-- The function `spdk_vhost_free_reactor(lcore)`: a 32-bit decrement. -/
def spdk_vhost_free_reactor (g_num_ctrlrs : List Nat) (lcore : Nat) : List Nat :=
  g_num_ctrlrs.set lcore ((g_num_ctrlrs.getD lcore 0 + 2 ^ 32 - 1) % 2 ^ 32)

/-- Core `i` is a member of the mask `m`. -/
def in_mask (m i : Nat) : Bool := m.testBit i

/-- The feature word `features` contains the feature bit `bit`. -/
def has_feature (features bit : Nat) : Bool := features.testBit bit

/-! ## Device registry -/

/-- The number of slots of `g_spdk_vhost_devices`. -/
def MAX_VHOST_DEVICES : Nat := 15

/-- The platform limit `PATH_MAX` (Linux value), the size of `path`. -/
def PATH_MAX : Nat := 4096

/-- The `errno` value `ENOENT`. -/
def ENOENT : Int := 2
/-- The `errno` value `EIO`. -/
def EIO : Int := 5
/-- The `errno` value `EEXIST`. -/
def EEXIST : Int := 17
/-- The `errno` value `ENODEV`. -/
def ENODEV : Int := 19
/-- The `errno` value `EINVAL`. -/
def EINVAL : Int := 22
/-- The `errno` value `ENOSPC`. -/
def ENOSPC : Int := 28

/-- The test `strncmp(s1, s2, n) == 0` on NUL-free character lists. -/
def strncmp_eq (s1 s2 : List Char) (n : Nat) : Bool :=
  s1.take n == s2.take n

/-- The test `strcmp(s1, s2) == 0`. -/
def strcmp_eq (s1 s2 : List Char) : Bool :=
  s1 == s2

/-- The name `spdk_vhost_dev_find` looks for: `ctrlr_name` moved past
`dev_dirname` when it starts with it. -/
def find_key (dev_dirname ctrlr_name : List Char) : List Char :=
  let dev_dirname_len := dev_dirname.length
  if strncmp_eq ctrlr_name dev_dirname dev_dirname_len then
    ctrlr_name.drop dev_dirname_len
  else
    ctrlr_name

/-- The function `spdk_vhost_dev_find(ctrlr_name)` on the registry `g_spdk_vhost_devices`
with the configured base directory `dev_dirname`. -/
def spdk_vhost_dev_find (dev_dirname : List Char)
    (g_spdk_vhost_devices : List (Option spdk_vhost_dev)) (ctrlr_name : List Char) :
    Option spdk_vhost_dev :=
  let ctrlr_name := find_key dev_dirname ctrlr_name
  (List.range MAX_VHOST_DEVICES).findSome? (fun i =>
    match g_spdk_vhost_devices.getD i none with
    | none => none
    | some d =>
      match d.name with
      | none => none
      | some nm => if strcmp_eq nm ctrlr_name then some d else none)

/-- The loop of `spdk_vhost_dev_register` that looks for a free slot: the
value of `ctrlr_num` after it. -/
def first_free_slot (g_spdk_vhost_devices : List (Option spdk_vhost_dev)) : Nat :=
  match (List.range MAX_VHOST_DEVICES).find?
      (fun i => (g_spdk_vhost_devices.getD i none).isNone) with
  | some i => i
  | none => MAX_VHOST_DEVICES

/-- What the calls of `spdk_vhost_dev_register` into the file system and into
the vhost transport library return during one registration. -/
structure register_env where
  stat_ret : Int
  is_sock : Bool
  unlink_ret : Int
  driver_register_ret : Int
  set_features_ret : Int
  disable_features_ret : Int
  callback_register_ret : Int
  driver_start_ret : Int
deriving DecidableEq, Repr

/-- The function `spdk_vhost_dev_register(vdev, backend)`: the return value and the
registry afterwards; `none` when the process ends in `rte_exit`.  The backend
only supplies the arguments of the transport calls, whose results are given
by `env`. -/
def spdk_vhost_dev_register (env : register_env) (dev_dirname : List Char)
    (g_spdk_vhost_devices : List (Option spdk_vhost_dev)) (vdev : spdk_vhost_dev) :
    Option (Int × List (Option spdk_vhost_dev)) :=
  match vdev.name with
  | none => some (-EINVAL, g_spdk_vhost_devices)
  | some name =>
    if (spdk_vhost_dev_find dev_dirname g_spdk_vhost_devices name).isSome then
      some (-EEXIST, g_spdk_vhost_devices)
    else
      let ctrlr_num := first_free_slot g_spdk_vhost_devices
      if ctrlr_num = MAX_VHOST_DEVICES then
        some (-ENOSPC, g_spdk_vhost_devices)
      else if dev_dirname.length + name.length ≥ PATH_MAX then
        some (-EINVAL, g_spdk_vhost_devices)
      else if env.stat_ret ≠ -1 ∧ !env.is_sock then
        some (-EINVAL, g_spdk_vhost_devices)
      else if env.stat_ret ≠ -1 ∧ env.unlink_ret ≠ 0 then
        none
      else if env.driver_register_ret ≠ 0 then
        some (- EIO, g_spdk_vhost_devices)
      else if env.set_features_ret ≠ 0 ∨ env.disable_features_ret ≠ 0 then
        some (-EINVAL, g_spdk_vhost_devices)
      else if env.callback_register_ret ≠ 0 then
        some (-ENOENT, g_spdk_vhost_devices)
      else if env.driver_start_ret ≠ 0 then
        some (- EIO, g_spdk_vhost_devices)
      else
        some (0, g_spdk_vhost_devices.set ctrlr_num (some vdev))

/-- Every path, file-system and transport step of one registration of a
device named `name` succeeds: the path fits, the path is free or holds a
socket that is removed, and the four transport calls return 0. -/
def steps_succeed (env : register_env) (dev_dirname name : List Char) : Prop :=
  dev_dirname.length + name.length < PATH_MAX ∧
  (env.stat_ret = -1 ∨ (env.is_sock = true ∧ env.unlink_ret = 0)) ∧
  env.driver_register_ret = 0 ∧ env.set_features_ret = 0 ∧
  env.disable_features_ret = 0 ∧ env.callback_register_ret = 0 ∧
  env.driver_start_ret = 0

instance (env : register_env) (d n : List Char) : Decidable (steps_succeed env d n) :=
  inferInstanceAs (Decidable (_ ∧ _ ∧ _ ∧ _ ∧ _ ∧ _ ∧ _))

/-- A caller that registers the devices of `ds` one after the other, each
with its own step results; it collects the return values (`none` for a
process exit, after which the registry is kept as it was). -/
def register_all (dev_dirname : List Char) :
    List (Option spdk_vhost_dev) → List (spdk_vhost_dev × register_env) →
    List (Option Int) × List (Option spdk_vhost_dev)
  | g, [] => ([], g)
  | g, (vdev, env) :: rest =>
    match spdk_vhost_dev_register env dev_dirname g vdev with
    | none => ([none], g)
    | some (rc, g1) =>
      let r := register_all dev_dirname g1 rest
      (some rc :: r.1, r.2)

/-- The registry with all slots empty. -/
def empty_registry : List (Option spdk_vhost_dev) :=
  List.replicate MAX_VHOST_DEVICES none

/-- The loop of `spdk_vhost_dev_unregister` that looks for the slot holding
the pointer `vdev`: the value of `ctrlr_num` after it. -/
def find_dev_slot (g_spdk_vhost_devices : List (Option spdk_vhost_dev))
    (vdev : spdk_vhost_dev) : Nat :=
  match (List.range MAX_VHOST_DEVICES).find?
      (fun i => g_spdk_vhost_devices.getD i none == some vdev) with
  | some i => i
  | none => MAX_VHOST_DEVICES

/-- The function `spdk_vhost_dev_unregister(vdev)`: the return value and the
registry afterwards.  `driver_unregister_ret` is what
`rte_vhost_driver_unregister(path)` returns when it is called.  The result is
`none` when a NULL name reaches the `%s` of `snprintf`, which C leaves
undefined. -/
def spdk_vhost_dev_unregister (driver_unregister_ret : Int) (dev_dirname : List Char)
    (g_spdk_vhost_devices : List (Option spdk_vhost_dev)) (vdev : spdk_vhost_dev) :
    Option (Int × List (Option spdk_vhost_dev)) :=
  if vdev.lcore ≠ -1 then
    some (-ENODEV, g_spdk_vhost_devices)
  else
    let ctrlr_num := find_dev_slot g_spdk_vhost_devices vdev
    if ctrlr_num = MAX_VHOST_DEVICES then
      some (-ENOSPC, g_spdk_vhost_devices)
    else
      match vdev.name with
      | none => none
      | some name =>
        if dev_dirname.length + name.length ≥ PATH_MAX then
          some (-EINVAL, g_spdk_vhost_devices)
        else if driver_unregister_ret ≠ 0 then
          some (- EIO, g_spdk_vhost_devices)
        else
          some (0, g_spdk_vhost_devices.set ctrlr_num none)

/-- The registry states that calls of `spdk_vhost_dev_register` and
`spdk_vhost_dev_unregister` produce from the empty registry under the base
directory `dev_dirname`. -/
inductive reachable (dev_dirname : List Char) : List (Option spdk_vhost_dev) → Prop
  | startup : reachable dev_dirname empty_registry
  | register (env : register_env) (g g1 : List (Option spdk_vhost_dev))
      (vdev : spdk_vhost_dev) (rc : Int) :
      reachable dev_dirname g →
      spdk_vhost_dev_register env dev_dirname g vdev = some (rc, g1) →
      reachable dev_dirname g1
  | unregister (ret : Int) (g g1 : List (Option spdk_vhost_dev))
      (vdev : spdk_vhost_dev) (rc : Int) :
      reachable dev_dirname g →
      spdk_vhost_dev_unregister ret dev_dirname g vdev = some (rc, g1) →
      reachable dev_dirname g1

/-- The second loop of `spdk_vhost_dev_next`, entered with the slot number
`i`: the content of the first occupied slot among `i .. MAX_VHOST_DEVICES - 1`,
or NULL. -/
def first_occupied_from (g_spdk_vhost_devices : List (Option spdk_vhost_dev)) (i : Nat) :
    Option spdk_vhost_dev :=
  (List.range' i (MAX_VHOST_DEVICES - i)).findSome?
    (fun j => g_spdk_vhost_devices.getD j none)

/-- The function `spdk_vhost_dev_next(prev)`; `prev = none` is a NULL
pointer.  The first loop leaves `i` one past the slot of `prev`, the second
returns the first occupied slot from `i` on. -/
def spdk_vhost_dev_next (g_spdk_vhost_devices : List (Option spdk_vhost_dev))
    (prev : Option spdk_vhost_dev) : Option spdk_vhost_dev :=
  let i :=
    match prev with
    | none => 0
    | some p => find_dev_slot g_spdk_vhost_devices p + 1
  first_occupied_from g_spdk_vhost_devices i

/-- A caller that iterates over the registry: it calls `spdk_vhost_dev_next`
first with NULL and then with the device returned last, until NULL comes
back, and lists the devices returned.  The result is `none` when `fuel` calls
did not reach the end. -/
def dev_iterate (g_spdk_vhost_devices : List (Option spdk_vhost_dev)) :
    Nat → Option spdk_vhost_dev → Option (List spdk_vhost_dev)
  | 0, _ => none
  | fuel + 1, prev =>
    match spdk_vhost_dev_next g_spdk_vhost_devices prev with
    | none => some []
    | some d =>
      match dev_iterate g_spdk_vhost_devices fuel (some d) with
      | none => none
      | some rest => some (d :: rest)

/-- What one call `strtoull(mask, &end, 16)` of the C library yields: the
value returned, the part of the string from `*end` on, and `errno`
afterwards (0 when it was not set). -/
structure strtoull_result where
  value : Nat
  rest : List Char
  errno : Int
deriving DecidableEq, Repr

/-- The function `spdk_vhost_parse_core_mask(mask, cpumask)`: the return value
and the content of `*cpumask` afterwards.  `mask = none` and `cpumask = none`
are NULL pointers; `strtoull` is the C library function for base 16 and
`app_core_mask` the value of `spdk_app_get_core_mask()`. -/
def spdk_vhost_parse_core_mask (strtoull : List Char → strtoull_result) (app_core_mask : Nat)
    (mask : Option (List Char)) (cpumask : Option Nat) : Int × Option Nat :=
  match mask, cpumask with
  | none, _ => (-1, cpumask)
  | some _, none => (-1, none)
  | some m, some _ =>
    let r := strtoull m
    if r.rest ≠ [] ∨ r.errno ≠ 0 ∨ r.value = 0 ∨ (r.value &&& app_core_mask) ≠ r.value then
      (-1, some r.value)
    else
      (0, some r.value)

/-! ## Example inputs -/

/-- A queue of capacity 8 whose cursor is about to wrap: the guest has
posted three descriptor heads (11, 12, 13) in the slots 6, 7 and 0. -/
def example_vq : rte_vhost_vring :=
  { desc := List.replicate 8 (vring_desc.mk 0 0 0 0),
    avail := { flags := 0, idx := 1, ring := [13, 0, 0, 0, 0, 0, 11, 12] },
    used := { flags := 0, idx := 0, ring := List.replicate 8 (vring_used_elem.mk 0 0) },
    size := 8, last_avail_idx := 65534, last_used_idx := 0, callfd := [] }

/-- The queue `example_vq` with the no-interrupt flag set by the guest. -/
def example_vq_no_interrupt : rte_vhost_vring :=
  { example_vq with avail := { example_vq.avail with flags := 1 } }

/-- A device without an assigned core and without negotiated features. -/
def example_dev : spdk_vhost_dev :=
  { self := 4096, name := some "vhost.0".toList, vid := 0, lcore := -1,
    negotiated_features := 0, cpumask := 1, task_cnt := 0 }

/-- A device that negotiated the notify-on-empty feature. -/
def example_dev_notify_on_empty : spdk_vhost_dev :=
  { example_dev with negotiated_features := 2 ^ 24 }

/-- A descriptor table holding the chain 2 → 0 → 3. -/
def example_desc_table : List vring_desc :=
  [ { addr := 8192, len := 16, flags := 1, next := 3 },
    { addr := 0, len := 0, flags := 0, next := 0 },
    { addr := 4096, len := 64, flags := 1, next := 0 },
    { addr := 12288, len := 1, flags := 2, next := 0 } ]

/-- Step results of a registration in which nothing is found at the socket
path and every transport call succeeds. -/
def example_env_ok : register_env :=
  { stat_ret := -1, is_sock := false, unlink_ret := 0, driver_register_ret := 0,
    set_features_ret := 0, disable_features_ret := 0, callback_register_ret := 0,
    driver_start_ret := 0 }

/-- A configured base directory. -/
def example_dirname : List Char := "/var/tmp/".toList

/-- The device object number `i`, named `nm`. -/
def example_named_dev (i : Nat) (nm : String) : spdk_vhost_dev × register_env :=
  ({ example_dev with self := 4096 + 256 * i, name := some nm.toList }, example_env_ok)

/-- Sixteen devices named `vhost.0` .. `vhost.15`. -/
def example_devs : List (spdk_vhost_dev × register_env) :=
  [ example_named_dev 0 "vhost.0", example_named_dev 1 "vhost.1",
    example_named_dev 2 "vhost.2", example_named_dev 3 "vhost.3",
    example_named_dev 4 "vhost.4", example_named_dev 5 "vhost.5",
    example_named_dev 6 "vhost.6", example_named_dev 7 "vhost.7",
    example_named_dev 8 "vhost.8", example_named_dev 9 "vhost.9",
    example_named_dev 10 "vhost.10", example_named_dev 11 "vhost.11",
    example_named_dev 12 "vhost.12", example_named_dev 13 "vhost.13",
    example_named_dev 14 "vhost.14", example_named_dev 15 "vhost.15" ]

/-- Sixteen devices with pairwise distinct names, the second of which is
named by the socket path of the first. -/
def example_devs_with_path : List (spdk_vhost_dev × register_env) :=
  example_named_dev 0 "vhost.0" :: example_named_dev 1 "/var/tmp/vhost.0" ::
    example_devs.drop 2

/-- A device whose name starts with the base directory `example_dirname`. -/
def example_dev_a : spdk_vhost_dev :=
  { example_dev with self := 4096, name := some "/var/tmp/vhost.0".toList }

/-- A second device object with the same name as `example_dev_a`. -/
def example_dev_b : spdk_vhost_dev :=
  { example_dev with self := 8192, name := some "/var/tmp/vhost.0".toList }

/-- A device whose name is the empty string. -/
def example_dev_empty_name : spdk_vhost_dev :=
  { example_dev with name := some [] }

/-- A device whose name pointer is NULL. -/
def example_dev_no_name : spdk_vhost_dev :=
  { example_dev with name := none }

/-- The queue `example_vq` completely full: the guest has posted 8 entries
beyond the cursor 65534, so that `avail.idx` has wrapped to 6. -/
def example_vq_full : rte_vhost_vring :=
  { example_vq with avail := { example_vq.avail with idx := 6 } }

/-- A registry holding the device `vhost.0` in slot 0. -/
def example_registry_one : List (Option spdk_vhost_dev) :=
  empty_registry.set 0 (some example_dev)

/-- A registry holding `/var/tmp/vhost.0` in slot 0 and `vhost.0` in slot 1,
as two registrations under the base directory `/var/tmp/` leave it. -/
def example_registry_two : List (Option spdk_vhost_dev) :=
  (empty_registry.set 0 (some example_dev_a)).set 1 (some example_dev)

/-- A registry with the slots 1 and 4 occupied. -/
def example_registry_sparse : List (Option spdk_vhost_dev) :=
  (empty_registry.set 1 (some example_dev)).set 4 (some example_dev_b)

/-- Step results of a registration that finds a socket at its path and fails
to remove it. -/
def example_env_unlink_fails : register_env :=
  { example_env_ok with stat_ret := 0, is_sock := true, unlink_ret := -1 }

/-! ## Ring engine: auxiliary facts -/

theorem size_mask_eq (vq : rte_vhost_vring) (k : Nat) (hsz : vq.size < 65536)
    (hpow : vq.size = 2 ^ k) : size_mask vq = 2 ^ k - 1 := by
  have hpos : 0 < vq.size := by rw [hpow]; exact Nat.pos_pow_of_pos k (by decide)
  unfold size_mask
  rw [← hpow]
  omega

theorem land_size_mask (vq : rte_vhost_vring) (k : Nat) (hsz : vq.size < 65536)
    (hpow : vq.size = 2 ^ k) (x : Nat) : x &&& size_mask vq = x % vq.size := by
  rw [size_mask_eq vq k hsz hpow, Nat.and_pow_two_sub_one_eq_mod, hpow]

theorem pow_lt_65536 (k : Nat) (h : 2 ^ k < 65536) : k ≤ 15 := by
  by_contra hk
  have h16 : 16 ≤ k := by omega
  have : 2 ^ 16 ≤ 2 ^ k := Nat.pow_le_pow_right (by decide) h16
  omega

theorem int_diff_mod (a l k : Nat) (hl : l < 65536) (hk : k ≤ 15) :
    (((a + 2 ^ 32 - l) % 2 ^ 32 % 2 ^ k : Nat) : Int) = ((a : Int) - l) % ((2 ^ k : Nat) : Int) := by
  have hdvd : 2 ^ k ∣ 2 ^ 32 := Nat.pow_dvd_pow 2 (by omega)
  rw [Nat.mod_mod_of_dvd _ hdvd]
  obtain ⟨c, hc⟩ := hdvd
  have h1 : ((a + 2 ^ 32 - l : Nat) : Int) = ((a : Int) - l) + ((2 ^ k : Nat) : Int) * c := by
    have : ((2 ^ 32 : Nat) : Int) = ((2 ^ k : Nat) : Int) * c := by
      rw [hc]; push_cast; ring
    have h2 : l ≤ a + 2 ^ 32 := by omega
    rw [Int.ofNat_sub h2]
    push_cast at this ⊢
    linarith
  rw [Int.natCast_mod, h1, Int.add_mul_emod_self_left]

theorem avail_ring_copy_length (ring : List Nat) (last mask count : Nat) (reqs : List Nat) :
    (avail_ring_copy ring last mask count reqs).length = reqs.length := by
  unfold avail_ring_copy
  induction count with
  | zero => simp
  | succ n ih =>
    rw [List.range_succ, List.foldl_append]
    simp only [List.foldl_cons, List.foldl_nil, List.length_set]
    exact ih

theorem avail_ring_copy_get (ring : List Nat) (last mask count : Nat) (reqs : List Nat)
    (hbuf : count ≤ reqs.length) (i : Nat) (hi : i < count) :
    (avail_ring_copy ring last mask count reqs)[i]? =
      some (ring.getD ((last + i) &&& mask) 0) := by
  induction count with
  | zero => omega
  | succ n ih =>
    have hlen := avail_ring_copy_length ring last mask n reqs
    unfold avail_ring_copy at ih hlen ⊢
    rw [List.range_succ, List.foldl_append]
    simp only [List.foldl_cons, List.foldl_nil]
    rw [List.getElem?_set]
    by_cases hin : n = i
    · subst hin
      rw [if_pos rfl, if_pos (by rw [hlen]; omega)]
    · rw [if_neg hin]
      exact ih (by omega) (by omega)

/-! ## Ring engine: claims -/

/-- C1: on a queue whose capacity is a power of two,
`spdk_vhost_vq_avail_ring_get` returns
`count = min((avail.idx - last_avail_idx) mod capacity, max_count)` entries,
entry `i < count` being `avail.ring[(old last_avail_idx + i) mod capacity]`;
`last_avail_idx` becomes its old value plus `count` modulo 65536 and nothing
else of the queue changes; when `count = 0`, and so whenever `max_count = 0`,
queue and buffer are unchanged and repeating the call changes nothing. -/
theorem avail_ring_get_contract (vq : rte_vhost_vring) (reqs : List Nat) (reqs_len k : Nat)
    (hwf : vring_wf vq) (hpow : vq.size = 2 ^ k) (hlen : reqs_len < 65536)
    (hbuf : reqs_len ≤ reqs.length) :
    ((spdk_vhost_vq_avail_ring_get vq reqs reqs_len).2.2 : Int) =
        min ((((vq.avail.idx : Int) - vq.last_avail_idx)) % (vq.size : Int)) (reqs_len : Int) ∧
    (∀ i, i < (spdk_vhost_vq_avail_ring_get vq reqs reqs_len).2.2 →
      ∃ v, vq.avail.ring[(vq.last_avail_idx + i) % vq.size]? = some v ∧
        (spdk_vhost_vq_avail_ring_get vq reqs reqs_len).2.1[i]? = some v) ∧
    (spdk_vhost_vq_avail_ring_get vq reqs reqs_len).1 =
      { vq with last_avail_idx :=
          (vq.last_avail_idx + (spdk_vhost_vq_avail_ring_get vq reqs reqs_len).2.2) % 65536 } ∧
    ((spdk_vhost_vq_avail_ring_get vq reqs reqs_len).2.2 = 0 →
      spdk_vhost_vq_avail_ring_get vq reqs reqs_len = (vq, reqs, 0) ∧
      spdk_vhost_vq_avail_ring_get (spdk_vhost_vq_avail_ring_get vq reqs reqs_len).1
        (spdk_vhost_vq_avail_ring_get vq reqs reqs_len).2.1 reqs_len = (vq, reqs, 0)) ∧
    spdk_vhost_vq_avail_ring_get vq reqs 0 = (vq, reqs, 0) := by
  obtain ⟨hsz, havail, hlast, _, hring, _⟩ := hwf
  have hk : k ≤ 15 := pow_lt_65536 k (hpow ▸ hsz)
  have hpos : 0 < vq.size := by rw [hpow]; exact Nat.pos_pow_of_pos k (by decide)
  have hmask : ∀ x, x &&& size_mask vq = x % vq.size := land_size_mask vq k hsz hpow
  -- the count as the code computes it
  have hraw : (min (((vq.avail.idx + 2 ^ 32 - vq.last_avail_idx) % 2 ^ 32) &&& size_mask vq)
      reqs_len) % 65536 =
      min ((vq.avail.idx + 2 ^ 32 - vq.last_avail_idx) % 2 ^ 32 % vq.size) reqs_len := by
    rw [hmask]
    apply Nat.mod_eq_of_lt
    exact lt_of_le_of_lt (Nat.min_le_right _ _) hlen
  have hint : (((vq.avail.idx + 2 ^ 32 - vq.last_avail_idx) % 2 ^ 32 % vq.size : Nat) : Int) =
      ((vq.avail.idx : Int) - vq.last_avail_idx) % (vq.size : Int) := by
    rw [hpow]; exact int_diff_mod _ _ k hlast hk
  have hzero : spdk_vhost_vq_avail_ring_get vq reqs 0 = (vq, reqs, 0) := by
    simp [spdk_vhost_vq_avail_ring_get]
  by_cases hc : min ((vq.avail.idx + 2 ^ 32 - vq.last_avail_idx) % 2 ^ 32 % vq.size) reqs_len = 0
  · have hres : spdk_vhost_vq_avail_ring_get vq reqs reqs_len = (vq, reqs, 0) := by
      unfold spdk_vhost_vq_avail_ring_get
      simp only [hraw, hc, if_true]
    have hvq : vq = { vq with last_avail_idx := (vq.last_avail_idx + 0) % 65536 } := by
      cases vq; simp at hlast ⊢; omega
    rw [hres]
    refine ⟨?_, ?_, hvq, ?_, hzero⟩
    · rw [← hint]; simp only []; rw [← Nat.cast_min, hc]
    · intro i hi; simp at hi
    · intro _; exact ⟨rfl, hres⟩
  · have hres : spdk_vhost_vq_avail_ring_get vq reqs reqs_len =
        ({ vq with last_avail_idx := (vq.last_avail_idx +
            min ((vq.avail.idx + 2 ^ 32 - vq.last_avail_idx) % 2 ^ 32 % vq.size) reqs_len) % 65536 },
         avail_ring_copy vq.avail.ring vq.last_avail_idx (size_mask vq)
            (min ((vq.avail.idx + 2 ^ 32 - vq.last_avail_idx) % 2 ^ 32 % vq.size) reqs_len) reqs,
         min ((vq.avail.idx + 2 ^ 32 - vq.last_avail_idx) % 2 ^ 32 % vq.size) reqs_len) := by
      unfold spdk_vhost_vq_avail_ring_get
      simp only [hraw, hc, if_false]
    rw [hres]
    refine ⟨?_, ?_, rfl, ?_, hzero⟩
    · rw [← hint]; simp only []; rw [← Nat.cast_min]
    · intro i hi
      simp only [] at hi
      have hidx : (vq.last_avail_idx + i) % vq.size < vq.avail.ring.length := by
        rw [hring]; exact Nat.mod_lt _ hpos
      refine ⟨vq.avail.ring[(vq.last_avail_idx + i) % vq.size], ?_, ?_⟩
      · exact List.getElem?_eq_getElem hidx
      · simp only []
        rw [avail_ring_copy_get _ _ _ _ _ (le_trans (Nat.min_le_right _ _) hbuf) i hi, hmask,
          List.getD_eq_getElem?_getD, List.getElem?_eq_getElem hidx]
        rfl
    · intro h0; exact absurd h0 hc

theorem enqueue_fields (vdev : spdk_vhost_dev) (vq : rte_vhost_vring) (id len : Nat) :
    (spdk_vhost_vq_used_ring_enqueue vdev vq id len).size = vq.size ∧
    (spdk_vhost_vq_used_ring_enqueue vdev vq id len).last_used_idx =
      (vq.last_used_idx + 1) % 65536 ∧
    (spdk_vhost_vq_used_ring_enqueue vdev vq id len).used.idx =
      (vq.last_used_idx + 1) % 65536 ∧
    (spdk_vhost_vq_used_ring_enqueue vdev vq id len).used.ring =
      vq.used.ring.set (vq.last_used_idx &&& size_mask vq) { id := id, len := len } := by
  unfold spdk_vhost_vq_used_ring_enqueue
  simp only []
  split <;> exact ⟨rfl, rfl, rfl, rfl⟩

theorem enqueue_all_from (vdev : spdk_vhost_dev) (k : Nat) (ps : List (Nat × Nat)) :
    ∀ (vq : rte_vhost_vring) (m : Nat), vq.size < 65536 → vq.size = 2 ^ k →
      vq.used.ring.length = vq.size → vq.last_used_idx = m → m + ps.length ≤ vq.size →
      (enqueue_all vdev vq ps).last_used_idx = m + ps.length ∧
      (ps ≠ [] → (enqueue_all vdev vq ps).used.idx = m + ps.length) ∧
      (∀ j, j < m → (enqueue_all vdev vq ps).used.ring[j]? = vq.used.ring[j]?) ∧
      (∀ i, i < ps.length → ∀ p, ps[i]? = some p →
        (enqueue_all vdev vq ps).used.ring[m + i]? = some { id := p.1, len := p.2 }) := by
  induction ps with
  | nil =>
    intro vq m _ _ _ hm _
    refine ⟨by simpa [enqueue_all] using hm, fun h => absurd rfl h, fun j _ => rfl, ?_⟩
    intro i hi; simp at hi
  | cons p rest ih =>
    intro vq m hsz hpow hring hm hle
    simp only [List.length_cons] at hle
    obtain ⟨e1, e2, e3, e4⟩ := enqueue_fields vdev vq p.1 p.2
    have hslot : vq.last_used_idx &&& size_mask vq = m := by
      rw [land_size_mask vq k hsz hpow, hm]; exact Nat.mod_eq_of_lt (by omega)
    have hnew : (vq.last_used_idx + 1) % 65536 = m + 1 := by
      rw [hm]; exact Nat.mod_eq_of_lt (by omega)
    rw [hslot] at e4
    rw [hnew] at e2 e3
    have hring1 : (spdk_vhost_vq_used_ring_enqueue vdev vq p.1 p.2).used.ring.length =
        (spdk_vhost_vq_used_ring_enqueue vdev vq p.1 p.2).size := by
      rw [e4, e1, List.length_set, hring]
    obtain ⟨r1, r2, r3, r4⟩ := ih (spdk_vhost_vq_used_ring_enqueue vdev vq p.1 p.2) (m + 1)
      (by rw [e1]; exact hsz) (by rw [e1]; exact hpow) hring1 e2 (by rw [e1]; omega)
    have hfold : enqueue_all vdev vq (p :: rest) =
        enqueue_all vdev (spdk_vhost_vq_used_ring_enqueue vdev vq p.1 p.2) rest := by
      simp [enqueue_all]
    rw [hfold]
    refine ⟨by rw [r1, List.length_cons]; omega, ?_, ?_, ?_⟩
    · intro _
      by_cases hr : rest = []
      · subst hr
        simpa [enqueue_all] using e3
      · rw [r2 hr, List.length_cons]; omega
    · intro j hj
      rw [r3 j (by omega), e4, List.getElem?_set_ne (by omega)]
    · intro i hi q hq
      cases i with
      | zero =>
        simp only [List.getElem?_cons_zero, Option.some.injEq] at hq
        subst hq
        rw [Nat.add_zero, r3 m (by omega), e4, List.getElem?_set_self (by rw [hring]; omega)]
      | succ i =>
        simp only [List.getElem?_cons_succ] at hq
        simp only [List.length_cons] at hi
        have := r4 i (by omega) q hq
        rw [show m + (i + 1) = m + 1 + i by omega]
        exact this

/-- C2: starting from `last_used_idx = 0` and `used.idx = 0` on a queue of
power-of-two capacity `C`, `N ≤ C` successive calls of
`spdk_vhost_vq_used_ring_enqueue` with the pairs `(id_i, len_i)` leave
`used.idx = N` and `used.ring[i] = (id_i, len_i)` for every `i < N` (whatever
the ids, so also for strictly increasing ones). -/
theorem used_ring_enqueue_sequence (vdev : spdk_vhost_dev) (vq : rte_vhost_vring) (k : Nat)
    (ps : List (Nat × Nat)) (hwf : vring_wf vq) (hpow : vq.size = 2 ^ k)
    (hlast : vq.last_used_idx = 0) (hidx : vq.used.idx = 0) (hN : ps.length ≤ vq.size) :
    (enqueue_all vdev vq ps).used.idx = ps.length ∧
    ∀ (i : Nat) (p : Nat × Nat), ps[i]? = some p →
      (enqueue_all vdev vq ps).used.ring[i]? = some (vring_used_elem.mk p.1 p.2) := by
  obtain ⟨hsz, _, _, _, _, hring⟩ := hwf
  obtain ⟨_, r2, _, r4⟩ := enqueue_all_from vdev k ps vq 0 hsz hpow hring hlast (by omega)
  constructor
  · by_cases hps : ps = []
    · subst hps; simpa [enqueue_all] using hidx
    · simpa using r2 hps
  · intro i p hp
    have hi : i < ps.length := by
      by_contra hcon
      rw [List.getElem?_eq_none (by omega)] at hp
      exact absurd hp (by simp)
    simpa using r4 i hi p hp

theorem land_two_pow_ne_zero (n i : Nat) : n &&& 2 ^ i ≠ 0 ↔ n.testBit i = true := by
  rw [Nat.and_two_pow]
  cases n.testBit i <;> simp

theorem should_notify_eq (vdev : spdk_vhost_dev) (vq : rte_vhost_vring) :
    spdk_vhost_vq_should_notify vdev vq =
      if has_feature vdev.negotiated_features VIRTIO_F_NOTIFY_ON_EMPTY = true ∧
          vq.avail.idx = vq.last_avail_idx then true
      else decide (vq.avail.flags &&& VRING_AVAIL_F_NO_INTERRUPT = 0) := by
  have h24 : (1 <<< VIRTIO_F_NOTIFY_ON_EMPTY) % 2 ^ 64 = 2 ^ VIRTIO_F_NOTIFY_ON_EMPTY := by
    decide
  unfold spdk_vhost_vq_should_notify has_feature
  rw [h24]
  simp only [land_two_pow_ne_zero]
  split
  · rfl
  · by_cases hf : vq.avail.flags &&& VRING_AVAIL_F_NO_INTERRUPT = 0 <;> simp [hf]

/-- C3 (as amended): `spdk_vhost_vq_should_notify` returns false exactly when
the no-interrupt flag of the available ring is set and, in addition, the
available ring is not fully drained or the notify-on-empty feature is absent;
in every other case it returns true. -/
theorem should_notify_false_iff (vdev : spdk_vhost_dev) (vq : rte_vhost_vring) :
    (spdk_vhost_vq_should_notify vdev vq = false ↔
      (vq.avail.flags &&& VRING_AVAIL_F_NO_INTERRUPT ≠ 0 ∧
        (vq.avail.idx ≠ vq.last_avail_idx ∨
          has_feature vdev.negotiated_features VIRTIO_F_NOTIFY_ON_EMPTY = false))) ∧
    (spdk_vhost_vq_should_notify vdev vq = true ↔
      ¬ (vq.avail.flags &&& VRING_AVAIL_F_NO_INTERRUPT ≠ 0 ∧
        (vq.avail.idx ≠ vq.last_avail_idx ∨
          has_feature vdev.negotiated_features VIRTIO_F_NOTIFY_ON_EMPTY = false))) := by
  rw [should_notify_eq]
  by_cases hf : has_feature vdev.negotiated_features VIRTIO_F_NOTIFY_ON_EMPTY = true <;>
    by_cases hi : vq.avail.idx = vq.last_avail_idx <;>
    by_cases hn : vq.avail.flags &&& VRING_AVAIL_F_NO_INTERRUPT = 0 <;>
    simp [hf, hi, hn]

/-- C4: `spdk_vhost_vq_should_notify` returns true if the negotiated features
contain the notify-on-empty bit and `avail.idx == last_avail_idx`; otherwise
it returns true if and only if the no-interrupt flag bit of the available
ring is clear. -/
theorem should_notify_contract (vdev : spdk_vhost_dev) (vq : rte_vhost_vring) :
    ((has_feature vdev.negotiated_features VIRTIO_F_NOTIFY_ON_EMPTY = true ∧
        vq.avail.idx = vq.last_avail_idx) →
      spdk_vhost_vq_should_notify vdev vq = true) ∧
    (¬ (has_feature vdev.negotiated_features VIRTIO_F_NOTIFY_ON_EMPTY = true ∧
        vq.avail.idx = vq.last_avail_idx) →
      (spdk_vhost_vq_should_notify vdev vq = true ↔
        vq.avail.flags &&& VRING_AVAIL_F_NO_INTERRUPT = 0)) := by
  rw [should_notify_eq]
  constructor
  · intro h; rw [if_pos h]
  · intro h; rw [if_neg h]; simp

theorem has_next_of_flag_set (d : vring_desc)
    (h : (d.flags &&& VRING_DESC_F_NEXT != 0) = true) :
    spdk_vhost_vring_desc_has_next d = true := by
  unfold spdk_vhost_vring_desc_has_next
  exact h

theorem has_next_of_flag_clear (d : vring_desc)
    (h : (d.flags &&& VRING_DESC_F_NEXT == 0) = true) :
    spdk_vhost_vring_desc_has_next d = false := by
  unfold spdk_vhost_vring_desc_has_next
  rw [bne, h]
  rfl

theorem desc_walk_chain (vq_desc : List vring_desc) (rest : List Nat) :
    ∀ a : Nat, is_desc_chain vq_desc (a :: rest) = true →
      desc_walk vq_desc a rest.length = some rest ∧
      (vq_desc[(a :: rest).getLastD 0]?.map spdk_vhost_vring_desc_has_next) = some false := by
  induction rest with
  | nil =>
    intro a h
    refine ⟨rfl, ?_⟩
    simp only [is_desc_chain] at h
    cases hd : vq_desc[a]? with
    | none => rw [hd] at h; exact absurd h (by simp)
    | some d =>
      rw [hd] at h
      simp only [List.getLastD_cons, List.getLastD_nil, hd, Option.map_some']
      rw [has_next_of_flag_clear d h]
  | cons b rest ih =>
    intro a h
    simp only [is_desc_chain] at h
    cases hd : vq_desc[a]? with
    | none => rw [hd] at h; exact absurd h (by simp)
    | some d =>
      rw [hd] at h
      simp only [Bool.and_eq_true, beq_iff_eq] at h
      obtain ⟨⟨hflag, hb⟩, hrest⟩ := h
      have hnext := has_next_of_flag_set d hflag
      obtain ⟨hw, hl⟩ := ih b hrest
      constructor
      · simp only [List.length_cons, desc_walk, hd, spdk_vhost_vring_desc_get_next, hnext,
          if_true, hb, hw]
      · simpa using hl

/-- C5: for a chain of `k ≥ 1` descriptors at pairwise distinct indices
`d_0 .. d_{k-1}` of a descriptor table, each but the last with the has-next
flag set and `next` holding the index of its successor, the last with the
flag clear: starting at `d_0`, `k - 1` calls of
`spdk_vhost_vring_desc_get_next` all pass the has-next assertion and return
`d_1, .., d_{k-1}` in this order, so that every descriptor of the chain is
visited exactly once, and `spdk_vhost_vring_desc_has_next` is false on the
last descriptor reached. -/
theorem desc_chain_round_trip (vq_desc : List vring_desc) (chain : List Nat)
    (hdistinct : chain.Nodup) (hchain : is_desc_chain vq_desc chain = true) :
    1 ≤ chain.length ∧
    desc_walk vq_desc (chain.headD 0) (chain.length - 1) = some chain.tail ∧
    chain.headD 0 :: chain.tail = chain ∧
    (chain.headD 0 :: chain.tail).Nodup ∧
    (vq_desc[chain.getLastD 0]?.map spdk_vhost_vring_desc_has_next) = some false := by
  cases chain with
  | nil => simp [is_desc_chain] at hchain
  | cons a rest =>
    obtain ⟨hw, hl⟩ := desc_walk_chain vq_desc rest a hchain
    refine ⟨by simp, ?_, rfl, hdistinct, hl⟩
    simpa using hw

/-! ## Core load balancer: auxiliary facts -/

theorem core_bit_test (cpumask i : Nat) (hi : i < 64) :
    (((1 <<< i) % 2 ^ 64) &&& cpumask = 0) ↔ cpumask.testBit i = false := by
  have hlt : 2 ^ i < 2 ^ 64 := Nat.pow_lt_pow_right (by decide) hi
  rw [Nat.one_shiftLeft, Nat.mod_eq_of_lt hlt, Nat.land_comm, Nat.and_two_pow]
  have hpos : 0 < 2 ^ i := Nat.pos_pow_of_pos i (by decide)
  cases cpumask.testBit i
  · simp
  · simp only [Bool.toNat_true, Nat.one_mul]
    constructor
    · intro h; omega
    · intro h; exact absurd h (by simp)

theorem allocate_reactor_scan_succ (g : List Nat) (cpumask n : Nat) :
    allocate_reactor_scan g cpumask (n + 1) =
      if ((1 <<< n) % 2 ^ 64) &&& cpumask = 0 then allocate_reactor_scan g cpumask n
      else if g.getD n 0 < (allocate_reactor_scan g cpumask n).2 then (n, g.getD n 0)
      else allocate_reactor_scan g cpumask n := by
  unfold allocate_reactor_scan
  rw [List.range_succ, List.foldl_append]
  rfl

theorem allocate_reactor_scan_inv (g : List Nat) (cpumask : Nat) :
    ∀ n, n ≤ 64 →
      (allocate_reactor_scan g cpumask n).2 ≤ INT_MAX ∧
      (∀ i, i < n → cpumask.testBit i = true →
        (allocate_reactor_scan g cpumask n).2 ≤ g.getD i 0) ∧
      ((allocate_reactor_scan g cpumask n).2 < INT_MAX →
        (allocate_reactor_scan g cpumask n).1 < n ∧
        cpumask.testBit (allocate_reactor_scan g cpumask n).1 = true ∧
        g.getD (allocate_reactor_scan g cpumask n).1 0 = (allocate_reactor_scan g cpumask n).2 ∧
        ∀ i, i < (allocate_reactor_scan g cpumask n).1 → cpumask.testBit i = true →
          (allocate_reactor_scan g cpumask n).2 < g.getD i 0) ∧
      ((allocate_reactor_scan g cpumask n).2 = INT_MAX →
        (allocate_reactor_scan g cpumask n).1 = 0) := by
  intro n
  induction n with
  | zero =>
    intro _
    have h0 : allocate_reactor_scan g cpumask 0 = (0, INT_MAX) := rfl
    rw [h0]
    refine ⟨le_refl _, ?_, ?_, fun _ => rfl⟩
    · intro i hi; omega
    · intro h; exact absurd h (lt_irrefl _)
  | succ n ih =>
    intro hn
    obtain ⟨i1, i2, i3, i4⟩ := ih (by omega)
    have hbit := core_bit_test cpumask n (by omega)
    rw [allocate_reactor_scan_succ]
    by_cases hclear : ((1 <<< n) % 2 ^ 64) &&& cpumask = 0
    · rw [if_pos hclear]
      have hb : cpumask.testBit n = false := hbit.mp hclear
      refine ⟨i1, ?_, ?_, i4⟩
      · intro i hi hti
        have hne : i ≠ n := by
          intro h; rw [h, hb] at hti; exact absurd hti (by simp)
        exact i2 i (by omega) hti
      · intro hlt
        obtain ⟨a, b, c, d⟩ := i3 hlt
        exact ⟨by omega, b, c, d⟩
    · rw [if_neg hclear]
      have hb : cpumask.testBit n = true := by
        cases hcase : cpumask.testBit n with
        | false => exact absurd (hbit.mpr hcase) hclear
        | true => rfl
      by_cases hless : g.getD n 0 < (allocate_reactor_scan g cpumask n).2
      · rw [if_pos hless]
        refine ⟨by simp only []; omega, ?_, ?_, ?_⟩
        · intro i hi hti
          simp only []
          by_cases hin : i = n
          · rw [hin]
          · have := i2 i (by omega) hti
            omega
        · intro _
          refine ⟨by simp only []; omega, hb, rfl, ?_⟩
          intro i hi hti
          simp only [] at hi ⊢
          have := i2 i hi hti
          omega
        · intro h
          simp only [] at h
          omega
      · rw [if_neg hless]
        refine ⟨i1, ?_, ?_, i4⟩
        · intro i hi hti
          by_cases hin : i = n
          · rw [hin]; omega
          · exact i2 i (by omega) hti
        · intro hlt
          obtain ⟨a, b, c, d⟩ := i3 hlt
          exact ⟨by omega, b, c, d⟩

theorem getD_lt_INT_MAX (g : List Nat) (hcnt : ∀ x, x ∈ g → x < INT_MAX) (i : Nat) :
    g.getD i 0 < INT_MAX := by
  rw [List.getD_eq_getElem?_getD]
  cases h : g[i]? with
  | none => simp [INT_MAX]
  | some x =>
    simp only [Option.getD_some]
    exact hcnt x (List.getElem?_mem h)

/-- What `spdk_vhost_allocate_reactor` does when the intersection of the two
masks has a core below the scan bound whose counter is below `INT_MAX`. -/
theorem allocate_reactor_select (RTE_MAX_LCORE app_core_mask : Nat) (g : List Nat)
    (cpumask : Nat)
    (hex : ∃ i, i < min RTE_MAX_LCORE 64 ∧ in_mask (cpumask &&& app_core_mask) i = true ∧
      g.getD i 0 < INT_MAX) :
    (spdk_vhost_allocate_reactor RTE_MAX_LCORE app_core_mask g cpumask).1 <
      min RTE_MAX_LCORE 64 ∧
    in_mask (cpumask &&& app_core_mask)
      (spdk_vhost_allocate_reactor RTE_MAX_LCORE app_core_mask g cpumask).1 = true ∧
    (∀ j, j < min RTE_MAX_LCORE 64 → in_mask (cpumask &&& app_core_mask) j = true →
      g.getD (spdk_vhost_allocate_reactor RTE_MAX_LCORE app_core_mask g cpumask).1 0 ≤
        g.getD j 0) ∧
    (∀ j, j < (spdk_vhost_allocate_reactor RTE_MAX_LCORE app_core_mask g cpumask).1 →
      in_mask (cpumask &&& app_core_mask) j = true →
      g.getD (spdk_vhost_allocate_reactor RTE_MAX_LCORE app_core_mask g cpumask).1 0 <
        g.getD j 0) ∧
    (spdk_vhost_allocate_reactor RTE_MAX_LCORE app_core_mask g cpumask).2 =
      g.set (spdk_vhost_allocate_reactor RTE_MAX_LCORE app_core_mask g cpumask).1
        ((g.getD (spdk_vhost_allocate_reactor RTE_MAX_LCORE app_core_mask g cpumask).1 0 + 1)
          % 2 ^ 32) := by
  obtain ⟨i, hi, hbit, hcnt⟩ := hex
  unfold in_mask at hbit ⊢
  have hne : cpumask &&& app_core_mask ≠ 0 := by
    intro h0; rw [h0] at hbit; simp at hbit
  have hres : spdk_vhost_allocate_reactor RTE_MAX_LCORE app_core_mask g cpumask =
      ((allocate_reactor_scan g (cpumask &&& app_core_mask) (min RTE_MAX_LCORE 64)).1,
       g.set (allocate_reactor_scan g (cpumask &&& app_core_mask) (min RTE_MAX_LCORE 64)).1
        ((g.getD (allocate_reactor_scan g (cpumask &&& app_core_mask)
          (min RTE_MAX_LCORE 64)).1 0 + 1) % 2 ^ 32)) := by
    unfold spdk_vhost_allocate_reactor
    simp only [hne, if_false]
  obtain ⟨_, i2, i3, _⟩ := allocate_reactor_scan_inv g (cpumask &&& app_core_mask)
    (min RTE_MAX_LCORE 64) (Nat.min_le_right _ _)
  have hmn : (allocate_reactor_scan g (cpumask &&& app_core_mask) (min RTE_MAX_LCORE 64)).2 <
      INT_MAX := lt_of_le_of_lt (i2 i hi hbit) hcnt
  obtain ⟨a, b, c, d⟩ := i3 hmn
  rw [hres]
  refine ⟨a, b, ?_, ?_, rfl⟩
  · intro j hj hbj; rw [c]; exact i2 j hj hbj
  · intro j hj hbj; rw [c]; exact d j hj hbj

theorem mask_1010_members :
    ∀ c, c < 64 → in_mask (0b1010 &&& 0b1111) c = true → c = 1 ∨ c = 3 := by
  decide

theorem allocate_reactor_example (n : Nat) (hn : 4 ≤ n) :
    (spdk_vhost_allocate_reactor n 0b1111 (List.replicate n 0) 0b1010).1 = 1 ∧
    (spdk_vhost_allocate_reactor n 0b1111
      (spdk_vhost_allocate_reactor n 0b1111 (List.replicate n 0) 0b1010).2 0b1010).1 = 3 := by
  have hb1 : in_mask (0b1010 &&& 0b1111) 1 = true := by decide
  have hb3 : in_mask (0b1010 &&& 0b1111) 3 = true := by decide
  have hrep : ∀ i, (List.replicate n 0).getD i 0 = 0 := by
    intro i
    rw [List.getD_eq_getElem?_getD, List.getElem?_replicate]
    split <;> rfl
  obtain ⟨a1, a2, _, a4, a5⟩ := allocate_reactor_select n 0b1111 (List.replicate n 0) 0b1010
    ⟨1, by omega, hb1, by rw [hrep]; decide⟩
  have hfirst : (spdk_vhost_allocate_reactor n 0b1111 (List.replicate n 0) 0b1010).1 = 1 := by
    rcases mask_1010_members _ (by omega) a2 with h | h
    · exact h
    · have := a4 1 (by omega) hb1
      rw [hrep, hrep] at this
      omega
  refine ⟨hfirst, ?_⟩
  rw [hfirst, hrep] at a5
  rw [a5]
  have h1 : ((List.replicate n 0).set 1 ((0 + 1) % 2 ^ 32)).getD 1 0 = 1 := by
    rw [List.getD_eq_getElem?_getD, List.getElem?_set_self (by rw [List.length_replicate]; omega)]
    rfl
  have h3 : ((List.replicate n 0).set 1 ((0 + 1) % 2 ^ 32)).getD 3 0 = 0 := by
    rw [List.getD_eq_getElem?_getD, List.getElem?_set_ne (by omega), ← List.getD_eq_getElem?_getD]
    exact hrep 3
  obtain ⟨b1, b2, b3, _, _⟩ := allocate_reactor_select n 0b1111
    ((List.replicate n 0).set 1 ((0 + 1) % 2 ^ 32)) 0b1010
    ⟨3, by omega, hb3, by rw [h3]; decide⟩
  rcases mask_1010_members _ (by omega) b2 with h | h
  · have := b3 3 (by omega) hb3
    rw [h, h1, h3] at this
    omega
  · exact h

/-! ## Core load balancer: claims -/

theorem in_mask_land_right (m n i : Nat) (h : in_mask (m &&& n) i = true) :
    in_mask n i = true := by
  unfold in_mask at h ⊢
  rw [Nat.testBit_and] at h
  cases hn : n.testBit i with
  | true => rfl
  | false => rw [hn] at h; simp at h

theorem in_mask_below (m k : Nat) (h : m < 2 ^ k) :
    ∀ i, in_mask m i = true → i < k := by
  intro i hi
  by_contra hge
  have hle : 2 ^ k ≤ 2 ^ i := Nat.pow_le_pow_right (by decide) (Nat.le_of_not_lt hge)
  have hfalse : m.testBit i = false := Nat.testBit_lt_two_pow (lt_of_lt_of_le h hle)
  unfold in_mask at hi
  rw [hfalse] at hi
  exact absurd hi (by simp)

/-- C6: for every load table whose counters are all below `2^31 - 1` and
every requested mask whose intersection with the allowed (application) core
mask is non-empty, `spdk_vhost_allocate_reactor` returns the core `c` in the
intersection with the smallest counter, the lowest id among cores tied for
the smallest, increments the counter of `c` by exactly 1 and leaves every
other counter unchanged; in particular on an all-zero table with allowed mask
`0b1111`, two successive calls with mask `0b1010` return core 1 and then
core 3.  The load table has one counter for each of the `RTE_MAX_LCORE` cores
of the platform, and the application core mask is a 64-bit mask that names
cores of the platform only. -/
theorem allocate_reactor_least_loaded (RTE_MAX_LCORE app_core_mask : Nat) (g : List Nat)
    (cpumask : Nat) (hlen : g.length = RTE_MAX_LCORE)
    (happ : ∀ i, in_mask app_core_mask i = true → i < min RTE_MAX_LCORE 64)
    (hcnt : ∀ x, x ∈ g → x < 2 ^ 31 - 1)
    (hne : cpumask &&& app_core_mask ≠ 0) :
    in_mask (cpumask &&& app_core_mask)
      (spdk_vhost_allocate_reactor RTE_MAX_LCORE app_core_mask g cpumask).1 = true ∧
    (∀ j, in_mask (cpumask &&& app_core_mask) j = true →
      g.getD (spdk_vhost_allocate_reactor RTE_MAX_LCORE app_core_mask g cpumask).1 0 ≤
        g.getD j 0) ∧
    (∀ j, j < (spdk_vhost_allocate_reactor RTE_MAX_LCORE app_core_mask g cpumask).1 →
      in_mask (cpumask &&& app_core_mask) j = true →
      g.getD (spdk_vhost_allocate_reactor RTE_MAX_LCORE app_core_mask g cpumask).1 0 <
        g.getD j 0) ∧
    (spdk_vhost_allocate_reactor RTE_MAX_LCORE app_core_mask g cpumask).2[
        (spdk_vhost_allocate_reactor RTE_MAX_LCORE app_core_mask g cpumask).1]? =
      some (g.getD (spdk_vhost_allocate_reactor RTE_MAX_LCORE app_core_mask g cpumask).1 0 + 1) ∧
    (∀ j, j ≠ (spdk_vhost_allocate_reactor RTE_MAX_LCORE app_core_mask g cpumask).1 →
      (spdk_vhost_allocate_reactor RTE_MAX_LCORE app_core_mask g cpumask).2[j]? = g[j]?) ∧
    (spdk_vhost_allocate_reactor RTE_MAX_LCORE app_core_mask g cpumask).2.length = g.length ∧
    ((∀ i, in_mask 0b1111 i = true → i < min RTE_MAX_LCORE 64) →
      (spdk_vhost_allocate_reactor RTE_MAX_LCORE 0b1111
        (List.replicate RTE_MAX_LCORE 0) 0b1010).1 = 1 ∧
      (spdk_vhost_allocate_reactor RTE_MAX_LCORE 0b1111
        (spdk_vhost_allocate_reactor RTE_MAX_LCORE 0b1111
          (List.replicate RTE_MAX_LCORE 0) 0b1010).2 0b1010).1 = 3) := by
  have hcnt2 : ∀ x, x ∈ g → x < INT_MAX := by
    intro x hx; have := hcnt x hx; unfold INT_MAX; omega
  have hbelow : ∀ j, in_mask (cpumask &&& app_core_mask) j = true →
      j < min RTE_MAX_LCORE 64 :=
    fun j hj => happ j (in_mask_land_right cpumask app_core_mask j hj)
  obtain ⟨i, hbit⟩ := Nat.ne_zero_implies_bit_true hne
  obtain ⟨a1, a2, a3, a4, a5⟩ := allocate_reactor_select RTE_MAX_LCORE app_core_mask g cpumask
    ⟨i, hbelow i hbit, hbit, getD_lt_INT_MAX g hcnt2 i⟩
  have hc : (spdk_vhost_allocate_reactor RTE_MAX_LCORE app_core_mask g cpumask).1 < g.length := by
    rw [hlen]; exact lt_of_lt_of_le a1 (Nat.min_le_left _ _)
  have hno : (g.getD (spdk_vhost_allocate_reactor RTE_MAX_LCORE app_core_mask g cpumask).1 0 + 1)
      % 2 ^ 32 =
      g.getD (spdk_vhost_allocate_reactor RTE_MAX_LCORE app_core_mask g cpumask).1 0 + 1 := by
    have := getD_lt_INT_MAX g hcnt2
      (spdk_vhost_allocate_reactor RTE_MAX_LCORE app_core_mask g cpumask).1
    unfold INT_MAX at this
    exact Nat.mod_eq_of_lt (by omega)
  refine ⟨a2, fun j hj => a3 j (hbelow j hj) hj, a4, ?_, ?_, ?_, ?_⟩
  · rw [a5, List.getElem?_set_self hc, hno]
  · intro j hj
    rw [a5, List.getElem?_set_ne (Ne.symm hj)]
  · rw [a5, List.length_set]
  · intro h15
    have h3 := h15 3 (by decide)
    exact allocate_reactor_example RTE_MAX_LCORE (by omega)

/-- C7: when the intersection of the requested mask with the allowed
(application) core mask is empty, `spdk_vhost_allocate_reactor` returns core 0
and leaves every counter of the load table unchanged. -/
theorem allocate_reactor_empty_intersection (RTE_MAX_LCORE app_core_mask : Nat)
    (g : List Nat) (cpumask : Nat) (hempty : cpumask &&& app_core_mask = 0) :
    spdk_vhost_allocate_reactor RTE_MAX_LCORE app_core_mask g cpumask = (0, g) := by
  unfold spdk_vhost_allocate_reactor
  simp only [hempty, if_true]

/-! ## Device registry: auxiliary facts -/

theorem find_range_first (p : Nat → Bool) (m : Nat) (hp : p m = true)
    (hnp : ∀ i, i < m → p i = false) : ∀ n, m < n → (List.range n).find? p = some m := by
  intro n
  induction n with
  | zero => intro h; omega
  | succ n ih =>
    intro hm
    rw [List.range_succ, List.find?_append]
    by_cases hlt : m < n
    · rw [ih hlt]; rfl
    · have hmn : m = n := by omega
      subst hmn
      have hnone : (List.range m).find? p = none := by
        rw [List.find?_eq_none]
        intro x hx
        rw [hnp x (List.mem_range.mp hx)]
        simp
      rw [hnone]
      simp [hp]

theorem find_range_none (p : Nat → Bool) (n : Nat) (hnp : ∀ i, i < n → p i = false) :
    (List.range n).find? p = none := by
  rw [List.find?_eq_none]
  intro x hx
  rw [hnp x (List.mem_range.mp hx)]
  simp

/-- The slots of a registry filled in slot order with the devices `done`. -/
theorem filled_getD (done : List spdk_vhost_dev) (r i : Nat) :
    (done.map some ++ List.replicate r none).getD i none = done[i]? := by
  rw [List.getD_eq_getElem?_getD]
  by_cases hi : i < done.length
  · rw [List.getElem?_append_left (by rw [List.length_map]; exact hi), List.getElem?_map,
      List.getElem?_eq_getElem hi]
    rfl
  · rw [List.getElem?_append_right (by rw [List.length_map]; omega), List.getElem?_replicate,
      List.getElem?_eq_none (by omega)]
    split <;> rfl

theorem filled_set (done : List spdk_vhost_dev) (r : Nat) (v : spdk_vhost_dev) :
    (done.map some ++ List.replicate (r + 1) none).set done.length (some v) =
      (done ++ [v]).map some ++ List.replicate r none := by
  have h : done.length = (done.map some).length := by rw [List.length_map]
  rw [List.set_append_right _ _ (by omega)]
  simp [List.replicate_succ]

theorem dev_find_none (dev_dirname : List Char) (g : List (Option spdk_vhost_dev))
    (name : List Char)
    (h : ∀ i d, i < MAX_VHOST_DEVICES → g.getD i none = some d →
      d.name ≠ some (find_key dev_dirname name)) :
    spdk_vhost_dev_find dev_dirname g name = none := by
  unfold spdk_vhost_dev_find
  rw [List.findSome?_eq_none_iff]
  intro i hi
  have hi2 := List.mem_range.mp hi
  cases hg : g.getD i none with
  | none => rfl
  | some d =>
    simp only []
    cases hn : d.name with
    | none => rfl
    | some nm =>
      simp only []
      have := h i d hi2 hg
      rw [hn] at this
      have hne : nm ≠ find_key dev_dirname name := fun e => this (by rw [e])
      simp [strcmp_eq, hne]

theorem dev_find_some (dev_dirname : List Char) (g : List (Option spdk_vhost_dev))
    (name : List Char) (i : Nat) (d : spdk_vhost_dev) (hi : i < MAX_VHOST_DEVICES)
    (hg : g.getD i none = some d) (hn : d.name = some (find_key dev_dirname name)) :
    (spdk_vhost_dev_find dev_dirname g name).isSome = true := by
  cases hf : spdk_vhost_dev_find dev_dirname g name with
  | some _ => rfl
  | none =>
    exfalso
    unfold spdk_vhost_dev_find at hf
    rw [List.findSome?_eq_none_iff] at hf
    have := hf i (List.mem_range.mpr hi)
    rw [hg] at this
    simp only [hn, strcmp_eq, beq_self_eq_true, if_true] at this
    exact absurd this (by simp)

theorem first_free_slot_filled (done : List spdk_vhost_dev) (r : Nat)
    (hlen : done.length + r = MAX_VHOST_DEVICES) :
    first_free_slot (done.map some ++ List.replicate r none) = done.length := by
  unfold first_free_slot
  have hfull : ∀ i, i < done.length →
      ((done.map some ++ List.replicate r none).getD i none).isNone = false := by
    intro i hi
    rw [filled_getD, List.getElem?_eq_getElem hi]
    rfl
  by_cases hr : r = 0
  · have hm : done.length = MAX_VHOST_DEVICES := by omega
    rw [find_range_none _ _ (by rw [← hm]; exact hfull)]
    exact hm.symm
  · rw [find_range_first _ done.length
      (by rw [filled_getD, List.getElem?_eq_none (le_refl _)]; rfl) hfull _ (by omega)]

/-- One registration on a registry filled in slot order. -/
theorem register_filled (env : register_env) (dev_dirname : List Char)
    (done : List spdk_vhost_dev) (r : Nat) (vdev : spdk_vhost_dev) (name : List Char)
    (hlen : done.length + r = MAX_VHOST_DEVICES) (hname : vdev.name = some name)
    (hkey : ∀ d, d ∈ done → d.name ≠ some (find_key dev_dirname name))
    (hsteps : steps_succeed env dev_dirname name) :
    spdk_vhost_dev_register env dev_dirname (done.map some ++ List.replicate r none) vdev =
      if r = 0 then some (-ENOSPC, done.map some ++ List.replicate r none)
      else some (0, (done ++ [vdev]).map some ++ List.replicate (r - 1) none) := by
  have hfind : spdk_vhost_dev_find dev_dirname (done.map some ++ List.replicate r none) name =
      none := by
    apply dev_find_none
    intro i d _ hg
    rw [filled_getD] at hg
    exact hkey d (List.getElem?_mem hg)
  obtain ⟨hpath, hfs, h1, h2, h3, h4, h5⟩ := hsteps
  unfold spdk_vhost_dev_register
  simp only [hname, hfind, Option.isSome_none, Bool.false_eq_true, if_false,
    first_free_slot_filled done r hlen]
  by_cases hr : r = 0
  · have hm : done.length = MAX_VHOST_DEVICES := by omega
    simp only [hr, hm, if_true]
  · have hm : done.length ≠ MAX_VHOST_DEVICES := by omega
    have hp : ¬ (dev_dirname.length + name.length ≥ PATH_MAX) := by omega
    have hset := filled_set done (r - 1) vdev
    rw [show r - 1 + 1 = r by omega] at hset
    simp only [hr, hm, hp, if_false, h1, h2, h3, h4, h5, ne_eq, not_true_eq_false, or_self,
      hset]
    rcases hfs with hs | ⟨hs, hu⟩
    · simp [hs]
    · simp [hs, hu]

/-- Registrations one after the other on a registry filled in slot order, as
long as free slots remain. -/
theorem register_all_filled (dev_dirname : List Char) :
    ∀ (ds : List (spdk_vhost_dev × register_env)) (done : List spdk_vhost_dev) (r : Nat),
      done.length + r = MAX_VHOST_DEVICES → ds.length ≤ r →
      (∀ p, p ∈ ds → ∃ nm, p.1.name = some nm ∧ steps_succeed p.2 dev_dirname nm) →
      (∀ p, p ∈ ds → ∀ nm, p.1.name = some nm →
        ∀ d, d ∈ done → d.name ≠ some (find_key dev_dirname nm)) →
      ds.Pairwise (fun a b => ∀ nb, b.1.name = some nb →
        a.1.name ≠ some (find_key dev_dirname nb)) →
      register_all dev_dirname (done.map some ++ List.replicate r none) ds =
        (List.replicate ds.length (some 0),
         (done ++ ds.map Prod.fst).map some ++ List.replicate (r - ds.length) none) := by
  intro ds
  induction ds with
  | nil =>
    intro done r _ _ _ _ _
    simp [register_all]
  | cons p rest ih =>
    intro done r hlen hr hnames hdone hpair
    obtain ⟨v, e⟩ := p
    simp only [List.length_cons] at hr
    obtain ⟨nm, hnm, hst⟩ := hnames (v, e) (List.mem_cons_self _ _)
    have hreg := register_filled e dev_dirname done r v nm hlen hnm
      (hdone (v, e) (List.mem_cons_self _ _) nm hnm) hst
    rw [if_neg (by omega)] at hreg
    rw [List.pairwise_cons] at hpair
    have hrest := ih (done ++ [v]) (r - 1) (by rw [List.length_append]; simp; omega) (by omega)
      (fun q hq => hnames q (List.mem_cons_of_mem _ hq))
      (by
        intro q hq nq hnq d hd
        rcases List.mem_append.mp hd with h | h
        · exact hdone q (List.mem_cons_of_mem _ hq) nq hnq d h
        · rw [List.mem_singleton] at h
          rw [h]
          exact hpair.1 q hq nq hnq)
      hpair.2
    simp only [register_all, hreg, hrest, List.length_cons, List.map_cons, List.replicate_succ]
    rw [List.append_assoc, List.singleton_append, show r - 1 - rest.length = r - (rest.length + 1) by omega]

/-! ## Device registry: claims -/

/-- C8 (as amended): starting from an empty registry, for every configured
base directory and every sequence of 16 devices with pairwise distinct names
in which no device's name, with a leading base directory removed as
`spdk_vhost_dev_find` removes it, equals the name of a device earlier in the
sequence (for an empty base directory this is again distinctness): when every
path, file-system and transport step succeeds, `spdk_vhost_dev_register`
returns 0 and inserts the device for each of the first 15 devices, and for the
16th it returns `-ENOSPC` and leaves the 15 entries unchanged. -/
theorem register_capacity (dev_dirname : List Char)
    (ds : List (spdk_vhost_dev × register_env)) (d16 : spdk_vhost_dev) (env16 : register_env)
    (hlen : ds.length = 15)
    (hsteps : ∀ p, p ∈ ds ++ [(d16, env16)] →
      ∃ nm, p.1.name = some nm ∧ steps_succeed p.2 dev_dirname nm)
    (_hdistinct : ((ds ++ [(d16, env16)]).map (fun p => p.1.name)).Nodup)
    (hkey : (ds ++ [(d16, env16)]).Pairwise (fun a b => ∀ nb, b.1.name = some nb →
      a.1.name ≠ some (find_key dev_dirname nb))) :
    register_all dev_dirname empty_registry ds =
      (List.replicate 15 (some 0), ds.map (fun p => some p.1)) ∧
    spdk_vhost_dev_register env16 dev_dirname (ds.map (fun p => some p.1)) d16 =
      some (-ENOSPC, ds.map (fun p => some p.1)) := by
  rw [List.pairwise_append] at hkey
  obtain ⟨hk1, _, hk3⟩ := hkey
  have hmap : ds.map (fun p => some p.1) = (ds.map Prod.fst).map some ++ List.replicate 0 none := by
    simp
  constructor
  · have h := register_all_filled dev_dirname ds [] MAX_VHOST_DEVICES (by simp)
      (by rw [hlen]; decide)
      (fun p hp => hsteps p (List.mem_append_left _ hp))
      (fun _ _ _ _ d hd => absurd hd (List.not_mem_nil d)) hk1
    rw [hlen] at h
    rw [hmap]
    exact h
  · obtain ⟨nm, hnm, hst⟩ := hsteps (d16, env16) (List.mem_append_right _ (List.mem_singleton_self _))
    have h := register_filled env16 dev_dirname (ds.map Prod.fst) 0 d16 nm
      (by rw [List.length_map, hlen]; rfl) hnm
      (by
        intro d hd
        obtain ⟨q, hq, hqd⟩ := List.mem_map.mp hd
        rw [← hqd]
        exact hk3 q hq (d16, env16) (List.mem_singleton_self _) nm hnm)
      hst
    rw [if_pos rfl] at h
    rw [hmap]
    exact h

/-- What does hold of duplicate names: when a live slot holds a device whose
name is the name that `spdk_vhost_dev_find` looks for, registration returns
`-EEXIST` and leaves the registry unchanged.  The name looked for is the
device's own name whenever the base directory is empty or does not start the
name. -/
theorem register_duplicate_key (env : register_env) (dev_dirname : List Char)
    (g : List (Option spdk_vhost_dev)) (vdev d : spdk_vhost_dev) (name : List Char) (i : Nat)
    (hname : vdev.name = some name) (hi : i < MAX_VHOST_DEVICES) (hg : g.getD i none = some d)
    (hd : d.name = some (find_key dev_dirname name)) :
    spdk_vhost_dev_register env dev_dirname g vdev = some (-EEXIST, g) := by
  unfold spdk_vhost_dev_register
  simp only [hname, dev_find_some dev_dirname g name i d hi hg hd, if_true]

/-- C10 (as amended): for every registry state, `spdk_vhost_dev_register` of a
device whose name is missing (a NULL name pointer) fails with the validation
error `-EINVAL` and leaves the registry unchanged. -/
theorem register_missing_name (env : register_env) (dev_dirname : List Char)
    (g : List (Option spdk_vhost_dev)) (vdev : spdk_vhost_dev) (hname : vdev.name = none) :
    spdk_vhost_dev_register env dev_dirname g vdev = some (-EINVAL, g) := by
  unfold spdk_vhost_dev_register
  simp only [hname]

/-! ## The claims on concrete inputs -/

/-- The scenario of C1 on a wrapping cursor: the three posted heads come
back in order and the cursor wraps from 65534 to 1. -/
theorem avail_ring_get_example :
    spdk_vhost_vq_avail_ring_get example_vq (List.replicate 8 0) 8 =
      ({ example_vq with last_avail_idx := 1 }, [11, 12, 13, 0, 0, 0, 0, 0], 3) := by
  decide

/-- C1 at `example_vq` with room for 8 entries. -/
theorem avail_ring_get_contract_witness :
    vring_wf example_vq ∧ example_vq.size = 2 ^ 3 ∧ 8 < 65536 ∧
    8 ≤ (List.replicate 8 0).length ∧
    (spdk_vhost_vq_avail_ring_get example_vq (List.replicate 8 0) 8).1 =
      { example_vq with last_avail_idx := (example_vq.last_avail_idx +
          (spdk_vhost_vq_avail_ring_get example_vq (List.replicate 8 0) 8).2.2) % 65536 } :=
  ⟨by decide, by decide, by decide, by decide,
    (avail_ring_get_contract example_vq (List.replicate 8 0) 8 3
      (by decide) (by decide) (by decide) (by decide)).2.2.1⟩

/-- C2 at `example_vq` with three completions. -/
theorem used_ring_enqueue_sequence_witness :
    vring_wf example_vq ∧ example_vq.size = 2 ^ 3 ∧ example_vq.last_used_idx = 0 ∧
    example_vq.used.idx = 0 ∧ [(11, 512), (12, 512), (13, 0)].length ≤ example_vq.size ∧
    (enqueue_all example_dev example_vq [(11, 512), (12, 512), (13, 0)]).used.idx =
      [(11, 512), (12, 512), (13, 0)].length :=
  ⟨by decide, by decide, by decide, by decide, by decide,
    (used_ring_enqueue_sequence example_dev example_vq 3 [(11, 512), (12, 512), (13, 0)]
      (by decide) (by decide) (by decide) (by decide) (by decide)).1⟩

/-- C3 as stated fails: with the no-interrupt flag set, the notify-on-empty
feature negotiated and the available ring not drained,
`spdk_vhost_vq_should_notify` returns false although the feature is not
absent. -/
theorem should_notify_three_conditions_fails :
    ¬ (spdk_vhost_vq_should_notify example_dev_notify_on_empty example_vq_no_interrupt = false ↔
        (example_vq_no_interrupt.avail.flags &&& VRING_AVAIL_F_NO_INTERRUPT ≠ 0 ∧
          example_vq_no_interrupt.avail.idx ≠ example_vq_no_interrupt.last_avail_idx ∧
          has_feature example_dev_notify_on_empty.negotiated_features
            VIRTIO_F_NOTIFY_ON_EMPTY = false)) := by
  decide

/-- C5 at the chain 2 → 0 → 3 of `example_desc_table`. -/
theorem desc_chain_round_trip_witness :
    [2, 0, 3].Nodup ∧ is_desc_chain example_desc_table [2, 0, 3] = true ∧
    desc_walk example_desc_table ([2, 0, 3].headD 0) ([2, 0, 3].length - 1) =
      some [2, 0, 3].tail :=
  ⟨by decide, by decide,
    (desc_chain_round_trip example_desc_table [2, 0, 3] (by decide) (by decide)).2.1⟩

/-- C6 on an all-zero table of 4 counters with allowed mask `0b1111`. -/
theorem allocate_reactor_least_loaded_witness :
    [0, 0, 0, 0].length = 4 ∧ (∀ i, in_mask 0b1111 i = true → i < min 4 64) ∧
    (∀ x, x ∈ [0, 0, 0, 0] → x < 2 ^ 31 - 1) ∧ 0b1010 &&& 0b1111 ≠ 0 ∧
    in_mask (0b1010 &&& 0b1111)
      (spdk_vhost_allocate_reactor 4 0b1111 [0, 0, 0, 0] 0b1010).1 = true ∧
    (spdk_vhost_allocate_reactor 4 0b1111 (List.replicate 4 0) 0b1010).1 = 1 ∧
    (spdk_vhost_allocate_reactor 4 0b1111
      (spdk_vhost_allocate_reactor 4 0b1111 (List.replicate 4 0) 0b1010).2 0b1010).1 = 3 :=
  ⟨by decide, in_mask_below 0b1111 (min 4 64) (by decide), by decide, by decide,
    (allocate_reactor_least_loaded 4 0b1111 [0, 0, 0, 0] 0b1010 (by decide)
      (in_mask_below 0b1111 (min 4 64) (by decide)) (by decide) (by decide)).1,
    (allocate_reactor_least_loaded 4 0b1111 [0, 0, 0, 0] 0b1010 (by decide)
      (in_mask_below 0b1111 (min 4 64) (by decide)) (by decide) (by decide)).2.2.2.2.2.2
      (in_mask_below 0b1111 (min 4 64) (by decide))⟩

/-- C7 at a table of 4 counters with disjoint masks. -/
theorem allocate_reactor_empty_intersection_witness :
    0b1100 &&& 0b0011 = 0 ∧
    spdk_vhost_allocate_reactor 4 0b0011 [2, 0, 1, 5] 0b1100 = (0, [2, 0, 1, 5]) :=
  ⟨by decide, allocate_reactor_empty_intersection 4 0b0011 [2, 0, 1, 5] 0b1100 (by decide)⟩

theorem steps_of_checked (dev_dirname : List Char) (l : List (spdk_vhost_dev × register_env))
    (h : ∀ p, p ∈ l → p.1.name.isSome = true ∧
      steps_succeed p.2 dev_dirname (p.1.name.getD [])) :
    ∀ p, p ∈ l → ∃ nm, p.1.name = some nm ∧ steps_succeed p.2 dev_dirname nm := by
  intro p hp
  obtain ⟨h1, h2⟩ := h p hp
  cases hn : p.1.name with
  | none => rw [hn] at h1; exact absurd h1 (by simp)
  | some nm => rw [hn] at h2; exact ⟨nm, rfl, h2⟩

theorem keys_of_checked (dev_dirname : List Char) (l : List (spdk_vhost_dev × register_env))
    (h : l.Pairwise (fun a b => a.1.name ≠ some (find_key dev_dirname (b.1.name.getD [])))) :
    l.Pairwise (fun a b => ∀ nb, b.1.name = some nb →
      a.1.name ≠ some (find_key dev_dirname nb)) := by
  refine List.Pairwise.imp ?_ h
  intro a b hab nb hnb
  rw [hnb] at hab
  exact hab

/-- C8 as stated fails for a non-empty base directory: the sixteen devices of
`example_devs_with_path` have pairwise distinct names and every step
succeeds, yet the second registration returns `-EEXIST`, because its name
`/var/tmp/vhost.0` is looked up as `vhost.0`. -/
theorem register_distinct_names_conflict :
    example_devs_with_path.length = 16 ∧
    (example_devs_with_path.map (fun p => p.1.name)).Nodup ∧
    (∀ p, p ∈ example_devs_with_path → p.1.name.isSome = true ∧
      steps_succeed p.2 example_dirname (p.1.name.getD [])) ∧
    (register_all example_dirname empty_registry example_devs_with_path).1[1]? =
      some (some (-EEXIST)) := by
  decide

/-- C8 (as amended) at the devices `vhost.0` .. `vhost.15` under the base
directory `/var/tmp/`. -/
theorem register_capacity_witness :
    (example_devs.take 15).length = 15 ∧
    ((example_devs.take 15 ++ [example_named_dev 15 "vhost.15"]).map
      (fun p => p.1.name)).Nodup ∧
    register_all example_dirname empty_registry (example_devs.take 15) =
      (List.replicate 15 (some 0), (example_devs.take 15).map (fun p => some p.1)) ∧
    spdk_vhost_dev_register example_env_ok example_dirname
        ((example_devs.take 15).map (fun p => some p.1)) (example_named_dev 15 "vhost.15").1 =
      some (-ENOSPC, (example_devs.take 15).map (fun p => some p.1)) :=
  ⟨by decide, by decide,
    register_capacity example_dirname (example_devs.take 15) (example_named_dev 15 "vhost.15").1
      example_env_ok (by decide)
      (steps_of_checked example_dirname _ (by decide)) (by decide)
      (keys_of_checked example_dirname _ (by decide))⟩

/-- C9 fails on the code: under the base directory `/var/tmp/`, a device named
`/var/tmp/vhost.0` is registered in slot 0, and a second device object with
the same name is then registered as well, in slot 1, with return value 0,
so that the registry holds two live entries of one name. -/
theorem register_duplicate_accepted :
    spdk_vhost_dev_register example_env_ok example_dirname empty_registry example_dev_a =
      some (0, empty_registry.set 0 (some example_dev_a)) ∧
    example_dev_b.name = example_dev_a.name ∧
    spdk_vhost_dev_register example_env_ok example_dirname
        (empty_registry.set 0 (some example_dev_a)) example_dev_b =
      some (0, (empty_registry.set 0 (some example_dev_a)).set 1 (some example_dev_b)) := by
  decide

/-- C10 as stated fails for the empty string: with no base directory
configured and every step succeeding, a device whose name is the empty string
is registered in slot 0 with return value 0. -/
theorem register_empty_name_accepted :
    example_dev_empty_name.name = some [] ∧
    spdk_vhost_dev_register example_env_ok [] empty_registry example_dev_empty_name =
      some (0, empty_registry.set 0 (some example_dev_empty_name)) := by
  decide

/-- C10 (as amended) at a device with a NULL name on a registry holding one
device. -/
theorem register_missing_name_witness :
    example_dev_no_name.name = none ∧
    spdk_vhost_dev_register example_env_ok example_dirname
        (empty_registry.set 0 (some example_dev)) example_dev_no_name =
      some (-EINVAL, empty_registry.set 0 (some example_dev)) :=
  ⟨by decide, register_missing_name example_env_ok example_dirname
    (empty_registry.set 0 (some example_dev)) example_dev_no_name (by decide)⟩

/-! ## Ring engine: further facts and claims -/

theorem enqueue_eq (vdev : spdk_vhost_dev) (vq : rte_vhost_vring) (id len : Nat) :
    spdk_vhost_vq_used_ring_enqueue vdev vq id len =
      { vq with
        last_used_idx := (vq.last_used_idx + 1) % 65536,
        used := { vq.used with
          ring := vq.used.ring.set (vq.last_used_idx &&& size_mask vq) { id := id, len := len },
          idx := (vq.last_used_idx + 1) % 65536 },
        callfd :=
          if spdk_vhost_vq_should_notify vdev
              (spdk_vhost_vq_used_ring_enqueue vdev vq id len) = true
          then 1 :: vq.callfd else vq.callfd } := by
  have hsame : ∀ q1 q2 : rte_vhost_vring, q1.avail = q2.avail →
      q1.last_avail_idx = q2.last_avail_idx →
      spdk_vhost_vq_should_notify vdev q1 = spdk_vhost_vq_should_notify vdev q2 := by
    intro q1 q2 h1 h2
    unfold spdk_vhost_vq_should_notify
    rw [h1, h2]
  have hn : spdk_vhost_vq_should_notify vdev (spdk_vhost_vq_used_ring_enqueue vdev vq id len) =
      spdk_vhost_vq_should_notify vdev vq := by
    apply hsame
    · unfold spdk_vhost_vq_used_ring_enqueue; simp only []; split <;> rfl
    · unfold spdk_vhost_vq_used_ring_enqueue; simp only []; split <;> rfl
  have hn1 : spdk_vhost_vq_should_notify vdev
      { vq with
        last_used_idx := (vq.last_used_idx + 1) % 65536,
        used := { vq.used with
          ring := vq.used.ring.set (vq.last_used_idx &&& size_mask vq) { id := id, len := len },
          idx := (vq.last_used_idx + 1) % 65536 } } =
      spdk_vhost_vq_should_notify vdev vq := hsame _ _ rfl rfl
  rw [hn]
  unfold spdk_vhost_vq_used_ring_enqueue
  simp only [hn1]
  split <;> rfl

/-- C17: on a queue of power-of-two capacity with old cursor
`u = last_used_idx`, one call of `spdk_vhost_vq_used_ring_enqueue(id, len)`
sets `used.ring[u mod capacity]` to `(id, len)`, leaves every other used-ring
slot, the available ring, the descriptor table and `last_avail_idx`
unchanged, sets `last_used_idx` and `used.idx` to `(u + 1) mod 65536`, and
writes the notification channel exactly once if
`spdk_vhost_vq_should_notify` holds on the resulting state and not at all
otherwise. -/
theorem used_ring_enqueue_frame (vdev : spdk_vhost_dev) (vq : rte_vhost_vring) (id len k : Nat)
    (hwf : vring_wf vq) (hpow : vq.size = 2 ^ k) :
    (spdk_vhost_vq_used_ring_enqueue vdev vq id len).used.ring[vq.last_used_idx % vq.size]? =
      some (vring_used_elem.mk id len) ∧
    (∀ j, j ≠ vq.last_used_idx % vq.size →
      (spdk_vhost_vq_used_ring_enqueue vdev vq id len).used.ring[j]? = vq.used.ring[j]?) ∧
    (spdk_vhost_vq_used_ring_enqueue vdev vq id len).used.ring.length = vq.used.ring.length ∧
    (spdk_vhost_vq_used_ring_enqueue vdev vq id len).used.flags = vq.used.flags ∧
    (spdk_vhost_vq_used_ring_enqueue vdev vq id len).avail = vq.avail ∧
    (spdk_vhost_vq_used_ring_enqueue vdev vq id len).desc = vq.desc ∧
    (spdk_vhost_vq_used_ring_enqueue vdev vq id len).size = vq.size ∧
    (spdk_vhost_vq_used_ring_enqueue vdev vq id len).last_avail_idx = vq.last_avail_idx ∧
    (spdk_vhost_vq_used_ring_enqueue vdev vq id len).last_used_idx =
      (vq.last_used_idx + 1) % 65536 ∧
    (spdk_vhost_vq_used_ring_enqueue vdev vq id len).used.idx =
      (vq.last_used_idx + 1) % 65536 ∧
    (spdk_vhost_vq_used_ring_enqueue vdev vq id len).callfd =
      if spdk_vhost_vq_should_notify vdev
          (spdk_vhost_vq_used_ring_enqueue vdev vq id len) = true
      then 1 :: vq.callfd else vq.callfd := by
  obtain ⟨hsz, _, _, _, _, hring⟩ := hwf
  have hpos : 0 < vq.size := by rw [hpow]; exact Nat.pos_pow_of_pos k (by decide)
  have hslot : vq.last_used_idx &&& size_mask vq = vq.last_used_idx % vq.size :=
    land_size_mask vq k hsz hpow _
  have hlt : vq.last_used_idx % vq.size < vq.used.ring.length := by
    rw [hring]; exact Nat.mod_lt _ hpos
  have heq := enqueue_eq vdev vq id len
  rw [hslot] at heq
  refine ⟨?_, ?_, ?_, ?_, ?_, ?_, ?_, ?_, ?_, ?_, ?_⟩
  · rw [heq]; exact List.getElem?_set_self hlt
  · intro j hj; rw [heq]; exact List.getElem?_set_ne (Ne.symm hj)
  · rw [heq]; exact List.length_set _ _ _
  · rw [heq]
  · rw [heq]
  · rw [heq]
  · rw [heq]
  · rw [heq]
  · rw [heq]
  · rw [heq]
  · exact congrArg rte_vhost_vring.callfd heq

theorem avail_ring_get_count (vq : rte_vhost_vring) (reqs : List Nat) (reqs_len k : Nat)
    (hwf : vring_wf vq) (hpow : vq.size = 2 ^ k) (hlen : reqs_len < 65536) :
    (spdk_vhost_vq_avail_ring_get vq reqs reqs_len).2.2 =
      min ((vq.avail.idx + 2 ^ 32 - vq.last_avail_idx) % 2 ^ 32 % vq.size) reqs_len ∧
    ((spdk_vhost_vq_avail_ring_get vq reqs reqs_len).2.2 = 0 →
      spdk_vhost_vq_avail_ring_get vq reqs reqs_len = (vq, reqs, 0)) := by
  obtain ⟨hsz, _, _, _, _, _⟩ := hwf
  have hraw : (min (((vq.avail.idx + 2 ^ 32 - vq.last_avail_idx) % 2 ^ 32) &&& size_mask vq)
      reqs_len) % 65536 =
      min ((vq.avail.idx + 2 ^ 32 - vq.last_avail_idx) % 2 ^ 32 % vq.size) reqs_len := by
    rw [land_size_mask vq k hsz hpow]
    exact Nat.mod_eq_of_lt (lt_of_le_of_lt (Nat.min_le_right _ _) hlen)
  by_cases hc : min ((vq.avail.idx + 2 ^ 32 - vq.last_avail_idx) % 2 ^ 32 % vq.size) reqs_len = 0
  · have hres : spdk_vhost_vq_avail_ring_get vq reqs reqs_len = (vq, reqs, 0) := by
      unfold spdk_vhost_vq_avail_ring_get
      simp only [hraw, hc, if_true]
    rw [hres]
    exact ⟨hc.symm, fun _ => rfl⟩
  · have hres : (spdk_vhost_vq_avail_ring_get vq reqs reqs_len).2.2 =
        min ((vq.avail.idx + 2 ^ 32 - vq.last_avail_idx) % 2 ^ 32 % vq.size) reqs_len := by
      unfold spdk_vhost_vq_avail_ring_get
      simp only [hraw, hc, if_false]
    exact ⟨hres, fun h0 => absurd (hres ▸ h0) hc⟩

/-- C18: on a queue of power-of-two capacity `C`, when the guest has posted
exactly `C` entries beyond the device cursor (`avail.idx - last_avail_idx`
congruent to `C` modulo 65536), `spdk_vhost_vq_avail_ring_get` returns 0
entries and changes nothing, `last_avail_idx` included; and whatever the
indices, one call never returns more than `C - 1` entries. -/
theorem avail_ring_get_full_ring (vq : rte_vhost_vring) (reqs : List Nat) (reqs_len k : Nat)
    (hwf : vring_wf vq) (hpow : vq.size = 2 ^ k) (hlen : reqs_len < 65536) :
    ((((vq.avail.idx : Int) - vq.last_avail_idx - vq.size) % 65536 = 0) →
      spdk_vhost_vq_avail_ring_get vq reqs reqs_len = (vq, reqs, 0) ∧
      (spdk_vhost_vq_avail_ring_get vq reqs reqs_len).1.last_avail_idx = vq.last_avail_idx) ∧
    (spdk_vhost_vq_avail_ring_get vq reqs reqs_len).2.2 ≤ vq.size - 1 := by
  obtain ⟨hcount, hzero⟩ := avail_ring_get_count vq reqs reqs_len k hwf hpow hlen
  obtain ⟨hsz, _, hlast, _, _, _⟩ := hwf
  have hk : k ≤ 15 := pow_lt_65536 k (hpow ▸ hsz)
  have hpos : 0 < vq.size := by rw [hpow]; exact Nat.pos_pow_of_pos k (by decide)
  constructor
  · intro hfull
    have hdvd : ((2 ^ k : Nat) : Int) ∣ 65536 := by
      have h1 : (2 : Nat) ^ k ∣ 2 ^ 16 := Nat.pow_dvd_pow 2 (by omega)
      have h2 : ((2 ^ k : Nat) : Int) ∣ ((2 ^ 16 : Nat) : Int) := Int.natCast_dvd_natCast.mpr h1
      simpa using h2
    have hmod : ((vq.avail.idx : Int) - vq.last_avail_idx) % ((2 ^ k : Nat) : Int) = 0 := by
      have h1 : ((vq.avail.idx : Int) - vq.last_avail_idx - vq.size) % ((2 ^ k : Nat) : Int) = 0 := by
        rw [← Int.emod_emod_of_dvd _ hdvd, hfull]; rfl
      have h2 : (vq.avail.idx : Int) - vq.last_avail_idx =
          ((vq.avail.idx : Int) - vq.last_avail_idx - vq.size) + ((2 ^ k : Nat) : Int) * 1 := by
        rw [hpow]; ring
      rw [h2, Int.add_mul_emod_self_left, h1]
    have hnat : (vq.avail.idx + 2 ^ 32 - vq.last_avail_idx) % 2 ^ 32 % vq.size = 0 := by
      have := int_diff_mod vq.avail.idx vq.last_avail_idx k hlast hk
      rw [hmod] at this
      rw [hpow]
      exact_mod_cast this
    have hc0 : (spdk_vhost_vq_avail_ring_get vq reqs reqs_len).2.2 = 0 := by
      rw [hcount, hnat]; exact Nat.zero_min _
    have hres := hzero hc0
    exact ⟨hres, by rw [hres]⟩
  · rw [hcount]
    have := Nat.mod_lt ((vq.avail.idx + 2 ^ 32 - vq.last_avail_idx) % 2 ^ 32) hpos
    have hmin := Nat.min_le_left
      ((vq.avail.idx + 2 ^ 32 - vq.last_avail_idx) % 2 ^ 32 % vq.size) reqs_len
    omega

/-! ## Core load balancer: further claims -/

theorem set_getElem_same (g : List Nat) (c : Nat) (hc : c < g.length) :
    g.set c g[c] = g := by
  apply List.ext_getElem?
  intro i
  rw [List.getElem?_set]
  by_cases hi : c = i
  · subst hi
    rw [if_pos rfl, if_pos hc, List.getElem?_eq_getElem hc]
  · rw [if_neg hi]

theorem allocate_reactor_nonempty (RTE_MAX_LCORE app_core_mask : Nat) (g : List Nat)
    (cpumask : Nat) (hne : cpumask &&& app_core_mask ≠ 0) :
    (spdk_vhost_allocate_reactor RTE_MAX_LCORE app_core_mask g cpumask).2 =
      g.set (spdk_vhost_allocate_reactor RTE_MAX_LCORE app_core_mask g cpumask).1
        ((g.getD (spdk_vhost_allocate_reactor RTE_MAX_LCORE app_core_mask g cpumask).1 0 + 1)
          % 2 ^ 32) := by
  unfold spdk_vhost_allocate_reactor
  simp only [hne, if_false]

/-- C19 (as amended): for every load table of 32-bit counters and every
requested mask whose intersection with the allowed (application) core mask is
non-empty, calling `spdk_vhost_allocate_reactor` and then
`spdk_vhost_free_reactor` on the returned core leaves the load table equal to
what it was before the allocation. -/
theorem allocate_then_free (RTE_MAX_LCORE app_core_mask : Nat) (g : List Nat) (cpumask : Nat)
    (hcnt : ∀ x, x ∈ g → x < 2 ^ 32) (hne : cpumask &&& app_core_mask ≠ 0) :
    spdk_vhost_free_reactor
      (spdk_vhost_allocate_reactor RTE_MAX_LCORE app_core_mask g cpumask).2
      (spdk_vhost_allocate_reactor RTE_MAX_LCORE app_core_mask g cpumask).1 = g := by
  rw [allocate_reactor_nonempty RTE_MAX_LCORE app_core_mask g cpumask hne]
  generalize (spdk_vhost_allocate_reactor RTE_MAX_LCORE app_core_mask g cpumask).1 = c
  unfold spdk_vhost_free_reactor
  by_cases hc : c < g.length
  · have hx : g[c] < 2 ^ 32 := hcnt _ (List.getElem_mem hc)
    have h1 : g.getD c 0 = g[c] := by
      rw [List.getD_eq_getElem?_getD, List.getElem?_eq_getElem hc]; rfl
    have h2 : (g.set c ((g.getD c 0 + 1) % 2 ^ 32)).getD c 0 = (g[c] + 1) % 2 ^ 32 := by
      rw [List.getD_eq_getElem?_getD, List.getElem?_set_self hc, h1]; rfl
    rw [h2, List.set_set]
    have h3 : ((g[c] + 1) % 2 ^ 32 + 2 ^ 32 - 1) % 2 ^ 32 = g[c] := by omega
    rw [h3]
    exact set_getElem_same g c hc
  · have hge : g.length ≤ c := by omega
    rw [List.set_eq_of_length_le (by rw [List.length_set]; exact hge),
      List.set_eq_of_length_le hge]

/-- C20 (as amended): for every load table of `RTE_MAX_LCORE` counters and
every requested mask whose intersection with the allowed (application) core
mask contains at least one core id below the scan bound
`min(RTE_MAX_LCORE, 64)` whose counter is below `INT_MAX`, the core id
returned by `spdk_vhost_allocate_reactor` is a member of that intersection
below the scan bound, and the counter that is incremented (modulo `2^32`) is
the counter of the returned core, all others staying as they were. -/
theorem allocate_reactor_member (RTE_MAX_LCORE app_core_mask : Nat) (g : List Nat)
    (cpumask : Nat) (hlen : g.length = RTE_MAX_LCORE)
    (hex : ∃ i, i < min RTE_MAX_LCORE 64 ∧ in_mask (cpumask &&& app_core_mask) i = true ∧
      g.getD i 0 < INT_MAX) :
    in_mask (cpumask &&& app_core_mask)
      (spdk_vhost_allocate_reactor RTE_MAX_LCORE app_core_mask g cpumask).1 = true ∧
    (spdk_vhost_allocate_reactor RTE_MAX_LCORE app_core_mask g cpumask).1 <
      min RTE_MAX_LCORE 64 ∧
    (spdk_vhost_allocate_reactor RTE_MAX_LCORE app_core_mask g cpumask).2[
        (spdk_vhost_allocate_reactor RTE_MAX_LCORE app_core_mask g cpumask).1]? =
      some ((g.getD (spdk_vhost_allocate_reactor RTE_MAX_LCORE app_core_mask g cpumask).1 0 + 1)
        % 2 ^ 32) ∧
    (∀ j, j ≠ (spdk_vhost_allocate_reactor RTE_MAX_LCORE app_core_mask g cpumask).1 →
      (spdk_vhost_allocate_reactor RTE_MAX_LCORE app_core_mask g cpumask).2[j]? = g[j]?) := by
  obtain ⟨a1, a2, _, _, a5⟩ :=
    allocate_reactor_select RTE_MAX_LCORE app_core_mask g cpumask hex
  have hc : (spdk_vhost_allocate_reactor RTE_MAX_LCORE app_core_mask g cpumask).1 < g.length := by
    rw [hlen]; exact lt_of_lt_of_le a1 (Nat.min_le_left _ _)
  refine ⟨a2, a1, ?_, ?_⟩
  · rw [a5, List.getElem?_set_self hc]
  · intro j hj
    rw [a5, List.getElem?_set_ne (Ne.symm hj)]

/-! ## Core mask parsing -/

/-- C16: for every core-mask string and every application core mask,
`spdk_vhost_parse_core_mask` returns 0 if and only if `strtoull` consumed the
whole string, reported no overflow and yielded a value `m` with `m != 0` and
`(m AND app_mask) == m`; it then has stored `m`; in every other case it
returns -1, in particular when the parsed value is zero or has a bit outside
the application core mask. -/
theorem parse_core_mask_contract (strtoull : List Char → strtoull_result)
    (app_core_mask : Nat) (mask : List Char) (old : Nat) :
    ((spdk_vhost_parse_core_mask strtoull app_core_mask (some mask) (some old)).1 = 0 ↔
      ((strtoull mask).rest = [] ∧ (strtoull mask).errno = 0 ∧ (strtoull mask).value ≠ 0 ∧
        (strtoull mask).value &&& app_core_mask = (strtoull mask).value)) ∧
    ((spdk_vhost_parse_core_mask strtoull app_core_mask (some mask) (some old)).1 = 0 →
      (spdk_vhost_parse_core_mask strtoull app_core_mask (some mask) (some old)).2 =
        some (strtoull mask).value) ∧
    ((spdk_vhost_parse_core_mask strtoull app_core_mask (some mask) (some old)).1 ≠ 0 →
      (spdk_vhost_parse_core_mask strtoull app_core_mask (some mask) (some old)).1 = -1) ∧
    (((strtoull mask).value = 0 ∨
        (strtoull mask).value &&& app_core_mask ≠ (strtoull mask).value) →
      (spdk_vhost_parse_core_mask strtoull app_core_mask (some mask) (some old)).1 = -1) := by
  unfold spdk_vhost_parse_core_mask
  simp only []
  by_cases h : (strtoull mask).rest ≠ [] ∨ (strtoull mask).errno ≠ 0 ∨
      (strtoull mask).value = 0 ∨ (strtoull mask).value &&& app_core_mask ≠ (strtoull mask).value
  · rw [if_pos h]
    have hneg : ¬ ((-1 : Int) = 0) := by decide
    refine ⟨⟨fun h0 => absurd h0 hneg, ?_⟩, fun h0 => absurd h0 hneg,
      fun _ => rfl, fun _ => rfl⟩
    rintro ⟨h1, h2, h3, h4⟩
    rcases h with h | h | h | h
    · exact absurd h1 h
    · exact absurd h2 h
    · exact absurd h h3
    · exact absurd h4 h
  · rw [if_neg h]
    simp only [not_or, not_not] at h
    obtain ⟨h1, h2, h3, h4⟩ := h
    refine ⟨⟨fun _ => ⟨h1, h2, h3, h4⟩, fun _ => rfl⟩, fun _ => rfl,
      fun h0 => absurd rfl h0, ?_⟩
    rintro (h | h)
    · exact absurd h h3
    · exact absurd h4 h

/-! ## Device registry: further auxiliary facts -/

theorem find_range_spec (p : Nat → Bool) :
    ∀ n, (∀ m, (List.range n).find? p = some m →
        m < n ∧ p m = true ∧ ∀ i, i < m → p i = false) ∧
      ((List.range n).find? p = none → ∀ i, i < n → p i = false) := by
  intro n
  induction n with
  | zero =>
    refine ⟨fun m h => ?_, fun _ i hi => absurd hi (Nat.not_lt_zero i)⟩
    simp at h
  | succ n ih =>
    obtain ⟨ih1, ih2⟩ := ih
    rw [List.range_succ, List.find?_append]
    cases hf : (List.range n).find? p with
    | some x =>
      obtain ⟨a, b, c⟩ := ih1 x hf
      refine ⟨fun m h => ?_, fun h => ?_⟩
      · simp only [Option.or_some, Option.some.injEq] at h
        subst h
        exact ⟨by omega, b, c⟩
      · simp at h
    | none =>
      have hall := ih2 hf
      cases hp : p n with
      | true =>
        refine ⟨fun m h => ?_, fun h => ?_⟩
        · simp [hp] at h
          subst h
          exact ⟨by omega, hp, hall⟩
        · simp [hp] at h
      | false =>
        refine ⟨fun m h => ?_, fun _ i hi => ?_⟩
        · simp [hp] at h
        · by_cases hin : i = n
          · rw [hin]; exact hp
          · exact hall i (by omega)

theorem findSome_range_first {β : Type} (f : Nat → Option β) (m : Nat) (b : β)
    (hf : f m = some b) (hnone : ∀ i, i < m → f i = none) :
    ∀ n, m < n → (List.range n).findSome? f = some b := by
  intro n
  induction n with
  | zero => intro h; omega
  | succ n ih =>
    intro hm
    rw [List.range_succ, List.findSome?_append]
    by_cases hlt : m < n
    · rw [ih hlt]; rfl
    · have hmn : m = n := by omega
      subst hmn
      have hn : (List.range m).findSome? f = none := by
        rw [List.findSome?_eq_none_iff]
        intro x hx
        exact hnone x (List.mem_range.mp hx)
      rw [hn]
      simp [hf]

theorem getD_set_slot (g : List (Option spdk_vhost_dev)) (c i : Nat)
    (x : Option spdk_vhost_dev) :
    (g.set c x).getD i none = if c = i ∧ c < g.length then x else g.getD i none := by
  rw [List.getD_eq_getElem?_getD, List.getD_eq_getElem?_getD, List.getElem?_set]
  by_cases hci : c = i
  · subst hci
    by_cases hc : c < g.length
    · simp [hc]
    · simp [hc, List.getElem?_eq_none (Nat.le_of_not_lt hc)]
  · simp [hci]

/-- What the free-slot loop of `spdk_vhost_dev_register` finds. -/
theorem first_free_slot_spec (g : List (Option spdk_vhost_dev)) :
    (first_free_slot g = MAX_VHOST_DEVICES ∧
      ∀ i, i < MAX_VHOST_DEVICES → (g.getD i none).isSome = true) ∨
    (first_free_slot g < MAX_VHOST_DEVICES ∧ g.getD (first_free_slot g) none = none ∧
      ∀ i, i < first_free_slot g → (g.getD i none).isSome = true) := by
  obtain ⟨h1, h2⟩ := find_range_spec (fun i => (g.getD i none).isNone) MAX_VHOST_DEVICES
  unfold first_free_slot
  cases hf : (List.range MAX_VHOST_DEVICES).find? (fun i => (g.getD i none).isNone) with
  | none =>
    left
    refine ⟨rfl, fun i hi => ?_⟩
    have := h2 hf i hi
    cases hg : g.getD i none with
    | none => rw [hg] at this; exact absurd this (by simp)
    | some _ => rfl
  | some c =>
    right
    obtain ⟨a, b, d⟩ := h1 c hf
    refine ⟨a, ?_, fun i hi => ?_⟩
    · cases hg : g.getD c none with
      | none => rfl
      | some _ => rw [hg] at b; exact absurd b (by simp)
    · have := d i hi
      cases hg : g.getD i none with
      | none => rw [hg] at this; exact absurd this (by simp)
      | some _ => rfl

/-- What the slot loop of `spdk_vhost_dev_unregister` and of
`spdk_vhost_dev_next` finds. -/
theorem find_dev_slot_spec (g : List (Option spdk_vhost_dev)) (vdev : spdk_vhost_dev) :
    (find_dev_slot g vdev = MAX_VHOST_DEVICES ∧
      ∀ i, i < MAX_VHOST_DEVICES → g.getD i none ≠ some vdev) ∨
    (find_dev_slot g vdev < MAX_VHOST_DEVICES ∧
      g.getD (find_dev_slot g vdev) none = some vdev ∧
      ∀ i, i < find_dev_slot g vdev → g.getD i none ≠ some vdev) := by
  obtain ⟨h1, h2⟩ := find_range_spec (fun i => g.getD i none == some vdev) MAX_VHOST_DEVICES
  unfold find_dev_slot
  cases hf : (List.range MAX_VHOST_DEVICES).find? (fun i => g.getD i none == some vdev) with
  | none =>
    left
    refine ⟨rfl, fun i hi => ?_⟩
    have := h2 hf i hi
    simpa using this
  | some c =>
    right
    obtain ⟨a, b, d⟩ := h1 c hf
    refine ⟨a, by simpa using b, fun i hi => ?_⟩
    have := d i hi
    simpa using this

theorem find_dev_slot_eq (g : List (Option spdk_vhost_dev)) (vdev : spdk_vhost_dev) (s : Nat)
    (hs : s < MAX_VHOST_DEVICES) (hg : g.getD s none = some vdev)
    (hlow : ∀ i, i < s → g.getD i none ≠ some vdev) : find_dev_slot g vdev = s := by
  unfold find_dev_slot
  have hp : (fun i => g.getD i none == some vdev) s = true := by
    show (g.getD s none == some vdev) = true
    rw [hg]; exact beq_self_eq_true _
  have hn : ∀ i, i < s → (fun i => g.getD i none == some vdev) i = false := by
    intro i hi
    show (g.getD i none == some vdev) = false
    exact beq_false_of_ne (hlow i hi)
  rw [find_range_first _ s hp hn _ hs]

/-- Every way `spdk_vhost_dev_register` can end. -/
theorem register_result (env : register_env) (dev_dirname : List Char)
    (g : List (Option spdk_vhost_dev)) (vdev : spdk_vhost_dev) :
    match spdk_vhost_dev_register env dev_dirname g vdev with
    | some (rc, g1) =>
      (rc < 0 ∧ g1 = g) ∨
      (rc = 0 ∧ g1 = g.set (first_free_slot g) (some vdev) ∧
        first_free_slot g < MAX_VHOST_DEVICES ∧
        ∃ nm, vdev.name = some nm ∧ spdk_vhost_dev_find dev_dirname g nm = none ∧
          steps_succeed env dev_dirname nm)
    | none => env.stat_ret ≠ -1 ∧ env.is_sock = true ∧ env.unlink_ret ≠ 0 := by
  unfold spdk_vhost_dev_register
  cases hn : vdev.name with
  | none => exact Or.inl ⟨by decide, rfl⟩
  | some nm =>
    simp only []
    by_cases h1 : (spdk_vhost_dev_find dev_dirname g nm).isSome = true
    · rw [if_pos h1]; exact Or.inl ⟨by decide, rfl⟩
    rw [if_neg h1]
    have hfind : spdk_vhost_dev_find dev_dirname g nm = none := by
      cases hf : spdk_vhost_dev_find dev_dirname g nm with
      | none => rfl
      | some _ => rw [hf] at h1; exact absurd rfl h1
    by_cases h2 : first_free_slot g = MAX_VHOST_DEVICES
    · rw [if_pos h2]; exact Or.inl ⟨by decide, rfl⟩
    rw [if_neg h2]
    by_cases h3 : dev_dirname.length + nm.length ≥ PATH_MAX
    · rw [if_pos h3]; exact Or.inl ⟨by decide, rfl⟩
    rw [if_neg h3]
    by_cases h4 : env.stat_ret ≠ -1 ∧ (!env.is_sock) = true
    · rw [if_pos h4]; exact Or.inl ⟨by decide, rfl⟩
    rw [if_neg h4]
    by_cases h5 : env.stat_ret ≠ -1 ∧ env.unlink_ret ≠ 0
    · rw [if_pos h5]
      refine ⟨h5.1, ?_, h5.2⟩
      cases hs : env.is_sock with
      | true => rfl
      | false => exact absurd ⟨h5.1, by rw [hs]; rfl⟩ h4
    rw [if_neg h5]
    by_cases h6 : env.driver_register_ret ≠ 0
    · rw [if_pos h6]; exact Or.inl ⟨by decide, rfl⟩
    rw [if_neg h6]
    by_cases h7 : env.set_features_ret ≠ 0 ∨ env.disable_features_ret ≠ 0
    · rw [if_pos h7]; exact Or.inl ⟨by decide, rfl⟩
    rw [if_neg h7]
    by_cases h8 : env.callback_register_ret ≠ 0
    · rw [if_pos h8]; exact Or.inl ⟨by decide, rfl⟩
    rw [if_neg h8]
    by_cases h9 : env.driver_start_ret ≠ 0
    · rw [if_pos h9]; exact Or.inl ⟨by decide, rfl⟩
    rw [if_neg h9]
    have hfree : first_free_slot g < MAX_VHOST_DEVICES := by
      rcases first_free_slot_spec g with ⟨h, _⟩ | ⟨h, _⟩
      · exact absurd h h2
      · exact h
    have hfs : env.stat_ret = -1 ∨ (env.is_sock = true ∧ env.unlink_ret = 0) := by
      by_cases hst : env.stat_ret = -1
      · exact Or.inl hst
      · right
        constructor
        · cases hs : env.is_sock with
          | true => rfl
          | false => exact absurd ⟨hst, by rw [hs]; rfl⟩ h4
        · by_contra hu
          exact h5 ⟨hst, hu⟩
    rw [not_or] at h7
    exact Or.inr ⟨rfl, rfl, hfree, nm, rfl, hfind, Nat.lt_of_not_le h3, hfs,
      not_not.mp h6, not_not.mp h7.1, not_not.mp h7.2, not_not.mp h8, not_not.mp h9⟩

/-- Every way `spdk_vhost_dev_unregister` can end. -/
theorem unregister_result (ret : Int) (dev_dirname : List Char)
    (g : List (Option spdk_vhost_dev)) (vdev : spdk_vhost_dev) :
    match spdk_vhost_dev_unregister ret dev_dirname g vdev with
    | some (rc, g1) =>
      (rc < 0 ∧ g1 = g) ∨
      (rc = 0 ∧ g1 = g.set (find_dev_slot g vdev) none ∧ vdev.lcore = -1 ∧
        find_dev_slot g vdev < MAX_VHOST_DEVICES ∧ ret = 0 ∧
        ∃ nm, vdev.name = some nm ∧ dev_dirname.length + nm.length < PATH_MAX)
    | none => vdev.name = none := by
  unfold spdk_vhost_dev_unregister
  by_cases h1 : vdev.lcore ≠ -1
  · rw [if_pos h1]; exact Or.inl ⟨by decide, rfl⟩
  rw [if_neg h1]
  simp only []
  by_cases h2 : find_dev_slot g vdev = MAX_VHOST_DEVICES
  · rw [if_pos h2]; exact Or.inl ⟨by decide, rfl⟩
  rw [if_neg h2]
  cases hn : vdev.name with
  | none => rfl
  | some nm =>
    simp only []
    by_cases h3 : dev_dirname.length + nm.length ≥ PATH_MAX
    · rw [if_pos h3]; exact Or.inl ⟨by decide, rfl⟩
    rw [if_neg h3]
    by_cases h4 : ret ≠ 0
    · rw [if_pos h4]; exact Or.inl ⟨by decide, rfl⟩
    rw [if_neg h4]
    have hslot : find_dev_slot g vdev < MAX_VHOST_DEVICES := by
      rcases find_dev_slot_spec g vdev with ⟨h, _⟩ | ⟨h, _⟩
      · exact absurd h h2
      · exact h
    exact Or.inr ⟨rfl, rfl, not_not.mp h1, hslot, not_not.mp h4, nm, rfl, Nat.lt_of_not_le h3⟩

theorem dev_find_first (dev_dirname : List Char) (g : List (Option spdk_vhost_dev))
    (n : List Char) (s : Nat) (d : spdk_vhost_dev) (hs : s < MAX_VHOST_DEVICES)
    (hg : g.getD s none = some d) (hd : d.name = some (find_key dev_dirname n))
    (hlow : ∀ i e, i < s → g.getD i none = some e → e.name ≠ some (find_key dev_dirname n)) :
    spdk_vhost_dev_find dev_dirname g n = some d := by
  unfold spdk_vhost_dev_find
  apply findSome_range_first _ s d _ _ _ hs
  · simp only [hg, hd, strcmp_eq, beq_self_eq_true, if_true]
  · intro i hi
    cases hgi : g.getD i none with
    | none => rfl
    | some e =>
      simp only []
      cases hen : e.name with
      | none => rfl
      | some nm =>
        simp only []
        have := hlow i e hi hgi
        rw [hen] at this
        have hne : nm ≠ find_key dev_dirname n := fun h => this (by rw [h])
        simp [strcmp_eq, hne]

theorem register_success (env : register_env) (dev_dirname : List Char)
    (g : List (Option spdk_vhost_dev)) (vdev : spdk_vhost_dev) (nm : List Char)
    (hname : vdev.name = some nm) (hfind : spdk_vhost_dev_find dev_dirname g nm = none)
    (hfree : first_free_slot g < MAX_VHOST_DEVICES)
    (hsteps : steps_succeed env dev_dirname nm) :
    spdk_vhost_dev_register env dev_dirname g vdev =
      some (0, g.set (first_free_slot g) (some vdev)) := by
  obtain ⟨hpath, hfs, h1, h2, h3, h4, h5⟩ := hsteps
  have hne : first_free_slot g ≠ MAX_VHOST_DEVICES := by omega
  have hp : ¬ (dev_dirname.length + nm.length ≥ PATH_MAX) := by omega
  unfold spdk_vhost_dev_register
  simp only [hname, hfind, Option.isSome_none, Bool.false_eq_true, if_false, hne, hp,
    h1, h2, h3, h4, h5, ne_eq, not_true_eq_false, or_self]
  rcases hfs with hs | ⟨hs, hu⟩
  · simp [hs]
  · simp [hs, hu]

theorem empty_registry_getD (i : Nat) : empty_registry.getD i none = none := by
  unfold empty_registry
  rw [List.getD_eq_getElem?_getD, List.getElem?_replicate]
  split <;> rfl

/-- In a reachable registry all 15 slots exist, and a name that
`spdk_vhost_dev_find` looks up unchanged is held by at most one slot. -/
theorem reachable_inv (dev_dirname : List Char) (g : List (Option spdk_vhost_dev))
    (h : reachable dev_dirname g) :
    g.length = MAX_VHOST_DEVICES ∧
    ∀ i j e1 e2 n, i < MAX_VHOST_DEVICES → j < MAX_VHOST_DEVICES →
      g.getD i none = some e1 → g.getD j none = some e2 →
      e1.name = some n → e2.name = some n → find_key dev_dirname n = n → i = j := by
  induction h with
  | startup =>
    refine ⟨rfl, ?_⟩
    intro i j e1 e2 n _ _ h1
    rw [empty_registry_getD] at h1
    exact absurd h1 (by simp)
  | register env g g1 vdev rc _ hreg ih =>
    obtain ⟨ihlen, ihu⟩ := ih
    have hres := register_result env dev_dirname g vdev
    rw [hreg] at hres
    rcases hres with ⟨_, hg⟩ | ⟨_, hset, hfree, nm, hnm, hfind, _⟩
    · rw [hg]; exact ⟨ihlen, ihu⟩
    · refine ⟨by rw [hset, List.length_set]; exact ihlen, ?_⟩
      have hclash : ∀ j e n, j < MAX_VHOST_DEVICES → g.getD j none = some e →
          e.name = some n → vdev.name = some n → find_key dev_dirname n = n → False := by
        intro j e n hj hge hen hvn hk
        have hnn : nm = n := by rw [hnm] at hvn; exact Option.some.inj hvn
        have := dev_find_some dev_dirname g nm j e hj hge (by rw [hnn, hk]; exact hen)
        rw [hfind] at this
        exact absurd this (by simp)
      intro i j e1 e2 n hi hj h1 h2 hn1 hn2 hk
      rw [hset, getD_set_slot] at h1 h2
      by_cases hci : first_free_slot g = i ∧ first_free_slot g < g.length
      · by_cases hcj : first_free_slot g = j ∧ first_free_slot g < g.length
        · rw [← hci.1, ← hcj.1]
        · rw [if_pos hci] at h1
          rw [if_neg hcj] at h2
          have hv : vdev = e1 := Option.some.inj h1
          exact absurd (hclash j e2 n hj h2 hn2 (by rw [hv]; exact hn1) hk) id
      · rw [if_neg hci] at h1
        by_cases hcj : first_free_slot g = j ∧ first_free_slot g < g.length
        · rw [if_pos hcj] at h2
          have hv : vdev = e2 := Option.some.inj h2
          exact absurd (hclash i e1 n hi h1 hn1 (by rw [hv]; exact hn2) hk) id
        · rw [if_neg hcj] at h2
          exact ihu i j e1 e2 n hi hj h1 h2 hn1 hn2 hk
  | unregister ret g g1 vdev rc _ hun ih =>
    obtain ⟨ihlen, ihu⟩ := ih
    have hres := unregister_result ret dev_dirname g vdev
    rw [hun] at hres
    rcases hres with ⟨_, hg⟩ | ⟨_, hset, _⟩
    · rw [hg]; exact ⟨ihlen, ihu⟩
    · refine ⟨by rw [hset, List.length_set]; exact ihlen, ?_⟩
      intro i j e1 e2 n hi hj h1 h2 hn1 hn2 hk
      rw [hset, getD_set_slot] at h1 h2
      by_cases hci : find_dev_slot g vdev = i ∧ find_dev_slot g vdev < g.length
      · rw [if_pos hci] at h1; exact absurd h1 (by simp)
      · rw [if_neg hci] at h1
        by_cases hcj : find_dev_slot g vdev = j ∧ find_dev_slot g vdev < g.length
        · rw [if_pos hcj] at h2; exact absurd h2 (by simp)
        · rw [if_neg hcj] at h2
          exact ihu i j e1 e2 n hi hj h1 h2 hn1 hn2 hk

/-- In a reachable registry every held device has a name whose socket path
fits in `PATH_MAX`: registration stores a device only after that test. -/
theorem reachable_paths_fit (dev_dirname : List Char) (g : List (Option spdk_vhost_dev))
    (h : reachable dev_dirname g) :
    ∀ i e, g.getD i none = some e →
      ∃ nm, e.name = some nm ∧ dev_dirname.length + nm.length < PATH_MAX := by
  induction h with
  | startup =>
    intro i e h1
    rw [empty_registry_getD] at h1
    exact absurd h1 (by simp)
  | register env g g1 vdev rc _ hreg ih =>
    have hres := register_result env dev_dirname g vdev
    rw [hreg] at hres
    rcases hres with ⟨_, hg⟩ | ⟨_, hset, _, nm, hnm, _, hst⟩
    · rw [hg]; exact ih
    · intro i e h1
      rw [hset, getD_set_slot] at h1
      by_cases hc : first_free_slot g = i ∧ first_free_slot g < g.length
      · rw [if_pos hc] at h1
        have hv : vdev = e := Option.some.inj h1
        rw [← hv]
        exact ⟨nm, hnm, hst.1⟩
      · rw [if_neg hc] at h1
        exact ih i e h1
  | unregister ret g g1 vdev rc _ hun ih =>
    have hres := unregister_result ret dev_dirname g vdev
    rw [hun] at hres
    rcases hres with ⟨_, hg⟩ | ⟨_, hset, _⟩
    · rw [hg]; exact ih
    · intro i e h1
      rw [hset, getD_set_slot] at h1
      by_cases hc : find_dev_slot g vdev = i ∧ find_dev_slot g vdev < g.length
      · rw [if_pos hc] at h1; exact absurd h1 (by simp)
      · rw [if_neg hc] at h1
        exact ih i e h1

/-! ## Device registry: further claims -/

/-- C13 (as amended): for every registry state and every outcome of the path,
file-system and transport steps, `spdk_vhost_dev_register` either returns 0
having stored the device in the lowest-numbered slot that was free and
changed no other slot, or returns a negative error code having left every
slot unchanged, or does not return at all because the process ends in
`rte_exit`, which happens only when a socket is found at the path and its
removal fails; it returns 0 only if every transport step (session register,
feature set and disable, callback register, start) succeeded. -/
theorem register_outcomes (env : register_env) (dev_dirname : List Char)
    (g : List (Option spdk_vhost_dev)) (vdev : spdk_vhost_dev)
    (hlen : g.length = MAX_VHOST_DEVICES) :
    (∀ rc g1, spdk_vhost_dev_register env dev_dirname g vdev = some (rc, g1) →
      (rc = 0 ∧
        (∃ c, c < MAX_VHOST_DEVICES ∧ g.getD c none = none ∧
          (∀ i, i < c → (g.getD i none).isSome = true) ∧
          g1.getD c none = some vdev ∧ (∀ j, j ≠ c → g1.getD j none = g.getD j none) ∧
          g1.length = g.length) ∧
        env.driver_register_ret = 0 ∧ env.set_features_ret = 0 ∧
        env.disable_features_ret = 0 ∧ env.callback_register_ret = 0 ∧
        env.driver_start_ret = 0) ∨
      (rc < 0 ∧ g1 = g)) ∧
    (spdk_vhost_dev_register env dev_dirname g vdev = none →
      env.stat_ret ≠ -1 ∧ env.is_sock = true ∧ env.unlink_ret ≠ 0) := by
  have hres := register_result env dev_dirname g vdev
  constructor
  · intro rc g1 h
    rw [h] at hres
    rcases hres with hneg | ⟨h0, hset, hfree, nm, _, _, hst⟩
    · exact Or.inr hneg
    · left
      obtain ⟨_, _, t1, t2, t3, t4, t5⟩ := hst
      refine ⟨h0, ⟨first_free_slot g, hfree, ?_, ?_, ?_, ?_, ?_⟩, t1, t2, t3, t4, t5⟩
      · rcases first_free_slot_spec g with ⟨h, _⟩ | ⟨_, h, _⟩
        · omega
        · exact h
      · rcases first_free_slot_spec g with ⟨h, _⟩ | ⟨_, _, h⟩
        · omega
        · exact h
      · rw [hset, getD_set_slot, if_pos ⟨rfl, by rw [hlen]; exact hfree⟩]
      · intro j hj
        rw [hset, getD_set_slot, if_neg (fun hc => hj hc.1.symm)]
      · rw [hset, List.length_set]
  · intro h
    rw [h] at hres
    exact hres

/-- C11: for every registry state and device, `spdk_vhost_dev_unregister`
returns `-ENODEV` whenever the device has an assigned core (`lcore != -1`) and
returns the unknown-device error (`-ENOSPC` in the code) when the device has
no assigned core and occupies no slot, leaving the registry unchanged in both
cases; in every registry state that registrations and unregistrations
produce, when the device has no assigned core, occupies a slot and the
transport unregister succeeds, it returns 0 and clears exactly that slot (the
lowest one, should the device be held by several), leaving all other slots
unchanged. -/
theorem unregister_contract (ret : Int) (dev_dirname : List Char)
    (g : List (Option spdk_vhost_dev)) (vdev : spdk_vhost_dev) :
    (vdev.lcore ≠ -1 →
      spdk_vhost_dev_unregister ret dev_dirname g vdev = some (-ENODEV, g)) ∧
    (vdev.lcore = -1 → (∀ i, i < MAX_VHOST_DEVICES → g.getD i none ≠ some vdev) →
      spdk_vhost_dev_unregister ret dev_dirname g vdev = some (-ENOSPC, g)) ∧
    (reachable dev_dirname g →
      ∀ t, vdev.lcore = -1 → t < MAX_VHOST_DEVICES → g.getD t none = some vdev → ret = 0 →
        ∃ s, s ≤ t ∧ g.getD s none = some vdev ∧
          (∀ i, i < s → g.getD i none ≠ some vdev) ∧
          ((∀ u, u < MAX_VHOST_DEVICES → g.getD u none = some vdev → u = t) → s = t) ∧
          spdk_vhost_dev_unregister ret dev_dirname g vdev = some (0, g.set s none) ∧
          (g.set s none).getD s none = none ∧
          (∀ j, j ≠ s → (g.set s none).getD j none = g.getD j none) ∧
          (g.set s none).length = g.length) := by
  refine ⟨?_, ?_, ?_⟩
  · intro h
    unfold spdk_vhost_dev_unregister
    rw [if_pos h]
  · intro h hnone
    have hslot : find_dev_slot g vdev = MAX_VHOST_DEVICES := by
      rcases find_dev_slot_spec g vdev with ⟨h1, _⟩ | ⟨h1, h2, _⟩
      · exact h1
      · exact absurd h2 (hnone _ h1)
    unfold spdk_vhost_dev_unregister
    simp only [h, ne_eq, not_true_eq_false, if_false, hslot, if_true]
  · intro hreach t h ht hg hret
    obtain ⟨hlen, _⟩ := reachable_inv dev_dirname g hreach
    obtain ⟨nm, hn, hpath⟩ := reachable_paths_fit dev_dirname g hreach t vdev hg
    have hspec : find_dev_slot g vdev < MAX_VHOST_DEVICES ∧
        g.getD (find_dev_slot g vdev) none = some vdev ∧
        ∀ i, i < find_dev_slot g vdev → g.getD i none ≠ some vdev := by
      rcases find_dev_slot_spec g vdev with ⟨_, h2⟩ | h2
      · exact absurd hg (h2 t ht)
      · exact h2
    obtain ⟨hs, hheld, hlow⟩ := hspec
    have hst : find_dev_slot g vdev ≤ t := by
      by_contra hcon
      exact hlow t (by omega) hg
    have hne : find_dev_slot g vdev ≠ MAX_VHOST_DEVICES := by omega
    have hp : ¬ (dev_dirname.length + nm.length ≥ PATH_MAX) := by omega
    refine ⟨find_dev_slot g vdev, hst, hheld, hlow, fun hu => hu _ hs hheld, ?_, ?_, ?_, ?_⟩
    · unfold spdk_vhost_dev_unregister
      simp only [h, ne_eq, not_true_eq_false, if_false, hne, hn, hp, hret]
    · rw [getD_set_slot, if_pos ⟨rfl, by rw [hlen]; exact hs⟩]
    · intro j hj
      rw [getD_set_slot, if_neg (fun hc => hj hc.1.symm)]
    · rw [List.length_set]

/-- C15 (as amended): for every registry state, every configured base
directory and every string `n`, `spdk_vhost_dev_find(n)` returns the device
in the lowest occupied slot whose name equals `n` with a leading base
directory removed, and returns absent if no occupied slot holds a device of
that name; the name looked for is `n` itself when the base directory is empty
or does not start `n`. -/
theorem dev_find_contract (dev_dirname : List Char) (g : List (Option spdk_vhost_dev))
    (n : List Char) :
    (∀ s d, s < MAX_VHOST_DEVICES → g.getD s none = some d →
      d.name = some (find_key dev_dirname n) →
      (∀ i e, i < s → g.getD i none = some e → e.name ≠ some (find_key dev_dirname n)) →
      spdk_vhost_dev_find dev_dirname g n = some d) ∧
    ((∀ i e, i < MAX_VHOST_DEVICES → g.getD i none = some e →
        e.name ≠ some (find_key dev_dirname n)) →
      spdk_vhost_dev_find dev_dirname g n = none) ∧
    find_key [] n = n ∧
    (strncmp_eq n dev_dirname dev_dirname.length = false → find_key dev_dirname n = n) ∧
    (strncmp_eq n dev_dirname dev_dirname.length = true →
      dev_dirname ++ find_key dev_dirname n = n) := by
  refine ⟨?_, ?_, ?_, ?_, ?_⟩
  · intro s d hs hg hd hlow
    exact dev_find_first dev_dirname g n s d hs hg hd hlow
  · intro h
    exact dev_find_none dev_dirname g n (fun i d hi hg => h i d hi hg)
  · simp [find_key, strncmp_eq]
  · intro h
    unfold find_key
    simp only [h, Bool.false_eq_true, if_false]
  · intro h
    unfold find_key
    simp only [h, if_true]
    unfold strncmp_eq at h
    have h1 : n.take dev_dirname.length = dev_dirname := by
      have := eq_of_beq h
      rw [this, List.take_length]
    conv_rhs => rw [← List.take_append_drop dev_dirname.length n]
    rw [h1]

/-! ## Registry iteration -/

theorem range'_slots (i : Nat) (hi : i < MAX_VHOST_DEVICES) :
    List.range' i (MAX_VHOST_DEVICES - i) =
      i :: List.range' (i + 1) (MAX_VHOST_DEVICES - (i + 1)) := by
  have h : MAX_VHOST_DEVICES - i = (MAX_VHOST_DEVICES - (i + 1)) + 1 := by omega
  rw [h, List.range'_succ]

theorem first_occupied_step (g : List (Option spdk_vhost_dev)) (i : Nat)
    (hi : i < MAX_VHOST_DEVICES) :
    first_occupied_from g i =
      match g.getD i none with
      | some d => some d
      | none => first_occupied_from g (i + 1) := by
  unfold first_occupied_from
  rw [range'_slots i hi, List.findSome?_cons]
  cases g.getD i none <;> rfl

theorem first_occupied_end (g : List (Option spdk_vhost_dev)) (i : Nat)
    (hi : MAX_VHOST_DEVICES ≤ i) : first_occupied_from g i = none := by
  unfold first_occupied_from
  rw [Nat.sub_eq_zero_of_le hi]
  rfl

theorem first_occupied_none (g : List (Option spdk_vhost_dev)) :
    ∀ k i, MAX_VHOST_DEVICES ≤ i + k →
      (∀ j, i ≤ j → j < MAX_VHOST_DEVICES → g.getD j none = none) →
      first_occupied_from g i = none := by
  intro k
  induction k with
  | zero => intro i hi _; exact first_occupied_end g i (by omega)
  | succ k ih =>
    intro i hi hnone
    by_cases hlt : i < MAX_VHOST_DEVICES
    · rw [first_occupied_step g i hlt, hnone i (le_refl _) hlt]
      exact ih (i + 1) (by omega) (fun j hj hj2 => hnone j (by omega) hj2)
    · exact first_occupied_end g i (by omega)

theorem first_occupied_first (g : List (Option spdk_vhost_dev)) (t : Nat)
    (e : spdk_vhost_dev) (ht : t < MAX_VHOST_DEVICES) (hg : g.getD t none = some e) :
    ∀ k i, i + k = t → (∀ j, i ≤ j → j < t → g.getD j none = none) →
      first_occupied_from g i = some e := by
  intro k
  induction k with
  | zero =>
    intro i hi _
    have : i = t := by omega
    subst this
    rw [first_occupied_step g i ht, hg]
  | succ k ih =>
    intro i hi hnone
    rw [first_occupied_step g i (by omega), hnone i (le_refl _) (by omega)]
    exact ih (i + 1) (by omega) (fun j hj hj2 => hnone j (by omega) hj2)

theorem dev_next_of_slot (g : List (Option spdk_vhost_dev)) (s : Nat) (d : spdk_vhost_dev)
    (hu : ∀ i j e, i < MAX_VHOST_DEVICES → j < MAX_VHOST_DEVICES →
      g.getD i none = some e → g.getD j none = some e → i = j)
    (hs : s < MAX_VHOST_DEVICES) (hg : g.getD s none = some d) :
    spdk_vhost_dev_next g (some d) = first_occupied_from g (s + 1) := by
  have hslot : find_dev_slot g d = s := by
    apply find_dev_slot_eq g d s hs hg
    intro i hi hgi
    have := hu i s d (by omega) hs hgi hg
    omega
  unfold spdk_vhost_dev_next
  simp only [hslot]

theorem dev_iterate_from (g : List (Option spdk_vhost_dev))
    (hu : ∀ i j e, i < MAX_VHOST_DEVICES → j < MAX_VHOST_DEVICES →
      g.getD i none = some e → g.getD j none = some e → i = j) :
    ∀ k i fuel prev, MAX_VHOST_DEVICES ≤ i + k → k < fuel →
      spdk_vhost_dev_next g prev = first_occupied_from g i →
      dev_iterate g fuel prev =
        some ((List.range' i (MAX_VHOST_DEVICES - i)).filterMap (fun j => g.getD j none)) := by
  intro k
  induction k with
  | zero =>
    intro i fuel prev hi hfuel hnext
    obtain ⟨f, rfl⟩ : ∃ f, fuel = f + 1 := ⟨fuel - 1, by omega⟩
    rw [first_occupied_end g i (by omega)] at hnext
    rw [Nat.sub_eq_zero_of_le (by omega : MAX_VHOST_DEVICES ≤ i)]
    simp only [dev_iterate, hnext]
    rfl
  | succ k ih =>
    intro i fuel prev hi hfuel hnext
    by_cases hlt : i < MAX_VHOST_DEVICES
    · rw [first_occupied_step g i hlt] at hnext
      rw [range'_slots i hlt, List.filterMap_cons]
      cases hgi : g.getD i none with
      | none =>
        rw [hgi] at hnext
        simp only []
        exact ih (i + 1) fuel prev (by omega) (by omega) hnext
      | some e =>
        rw [hgi] at hnext
        simp only [] at hnext ⊢
        obtain ⟨f, rfl⟩ : ∃ f, fuel = f + 1 := ⟨fuel - 1, by omega⟩
        have hrest := ih (i + 1) f (some e) (by omega) (by omega)
          (dev_next_of_slot g i e hu hlt hgi)
        simp only [dev_iterate, hnext, hrest]
    · obtain ⟨f, rfl⟩ : ∃ f, fuel = f + 1 := ⟨fuel - 1, by omega⟩
      rw [first_occupied_end g i (by omega)] at hnext
      rw [Nat.sub_eq_zero_of_le (by omega : MAX_VHOST_DEVICES ≤ i)]
      simp only [dev_iterate, hnext]
      rfl

/-- C14: in a registry in which each device occupies at most one slot,
`spdk_vhost_dev_next(NULL)` returns the device in the lowest occupied slot
(NULL if the registry is empty), and `spdk_vhost_dev_next(d)` for a device `d`
in slot `s` returns the device in the lowest occupied slot greater than `s`
(NULL if there is none); iterating from NULL until NULL is returned ends
within `MAX_VHOST_DEVICES + 1` calls and visits the devices of the occupied
slots exactly once each, in increasing slot order. -/
theorem dev_next_iteration (g : List (Option spdk_vhost_dev))
    (hu : ∀ i j e, i < MAX_VHOST_DEVICES → j < MAX_VHOST_DEVICES →
      g.getD i none = some e → g.getD j none = some e → i = j) :
    (∀ s d, s < MAX_VHOST_DEVICES → g.getD s none = some d →
      (∀ j, j < s → g.getD j none = none) → spdk_vhost_dev_next g none = some d) ∧
    ((∀ j, j < MAX_VHOST_DEVICES → g.getD j none = none) →
      spdk_vhost_dev_next g none = none) ∧
    (∀ s d, s < MAX_VHOST_DEVICES → g.getD s none = some d →
      (∀ t e, s < t → t < MAX_VHOST_DEVICES → g.getD t none = some e →
        (∀ j, s < j → j < t → g.getD j none = none) →
        spdk_vhost_dev_next g (some d) = some e) ∧
      ((∀ j, s < j → j < MAX_VHOST_DEVICES → g.getD j none = none) →
        spdk_vhost_dev_next g (some d) = none)) ∧
    dev_iterate g (MAX_VHOST_DEVICES + 1) none =
      some ((List.range MAX_VHOST_DEVICES).filterMap (fun j => g.getD j none)) := by
  have h0 : spdk_vhost_dev_next g none = first_occupied_from g 0 := rfl
  refine ⟨?_, ?_, ?_, ?_⟩
  · intro s d hs hg hnone
    rw [h0]
    exact first_occupied_first g s d hs hg s 0 (by omega) (fun j _ hj => hnone j hj)
  · intro hnone
    rw [h0]
    exact first_occupied_none g MAX_VHOST_DEVICES 0 (by omega) (fun j _ hj => hnone j hj)
  · intro s d hs hg
    rw [dev_next_of_slot g s d hu hs hg]
    constructor
    · intro t e hst ht hge hnone
      exact first_occupied_first g t e ht hge (t - (s + 1)) (s + 1) (by omega)
        (fun j hj hj2 => hnone j (by omega) hj2)
    · intro hnone
      exact first_occupied_none g MAX_VHOST_DEVICES (s + 1) (by omega)
        (fun j hj hj2 => hnone j (by omega) hj2)
  · have h := dev_iterate_from g hu MAX_VHOST_DEVICES 0 (MAX_VHOST_DEVICES + 1) none
      (by omega) (by omega) h0
    rw [h, List.range_eq_range']
    rfl

/-! ## Re-registration -/

/-- C12 (as amended): for every reachable registry state, every configured
base directory and every registered device `d` whose name `n` is looked up
unchanged by `spdk_vhost_dev_find` (the base directory is empty or does not
start `n`): if `spdk_vhost_dev_unregister(d)` succeeds, then a following
`spdk_vhost_dev_register` of a device with the same name succeeds, given that
every path, file-system and transport step succeeds, and the device is
afterwards held by a slot of the registry and found by
`spdk_vhost_dev_find(n)`. -/
theorem reregister_after_unregister (dev_dirname : List Char)
    (g g1 : List (Option spdk_vhost_dev)) (ret : Int) (env : register_env)
    (d d2 : spdk_vhost_dev) (n : List Char) (s : Nat)
    (hreach : reachable dev_dirname g)
    (hs : s < MAX_VHOST_DEVICES) (hd : g.getD s none = some d) (hname : d.name = some n)
    (hkey : find_key dev_dirname n = n)
    (hun : spdk_vhost_dev_unregister ret dev_dirname g d = some (0, g1))
    (hname2 : d2.name = some n) (hsteps : steps_succeed env dev_dirname n) :
    ∃ c, c < MAX_VHOST_DEVICES ∧
      spdk_vhost_dev_register env dev_dirname g1 d2 = some (0, g1.set c (some d2)) ∧
      (g1.set c (some d2)).getD c none = some d2 ∧
      spdk_vhost_dev_find dev_dirname (g1.set c (some d2)) n = some d2 := by
  obtain ⟨hlen, huniq⟩ := reachable_inv dev_dirname g hreach
  have hres := unregister_result ret dev_dirname g d
  rw [hun] at hres
  rcases hres with ⟨hneg, _⟩ | ⟨_, hset, _, hslot, _⟩
  · exact absurd hneg (by decide)
  have hheld : g.getD (find_dev_slot g d) none = some d := by
    rcases find_dev_slot_spec g d with ⟨h, _⟩ | ⟨_, h, _⟩
    · omega
    · exact h
  have hts : find_dev_slot g d = s :=
    huniq _ s d d n hslot hs hheld hd hname hname hkey
  rw [hts] at hset
  have hlen1 : g1.length = MAX_VHOST_DEVICES := by rw [hset, List.length_set]; exact hlen
  -- no slot of the registry after the unregistration holds the name
  have hgone : ∀ i e, i < MAX_VHOST_DEVICES → g1.getD i none = some e → e.name ≠ some n := by
    intro i e hi hge hen
    rw [hset, getD_set_slot] at hge
    by_cases hc : s = i ∧ s < g.length
    · rw [if_pos hc] at hge; exact absurd hge (by simp)
    · rw [if_neg hc] at hge
      have := huniq i s e d n hi hs hge hd hen hname hkey
      exact hc ⟨this.symm, by rw [hlen]; exact hs⟩
  have hfind : spdk_vhost_dev_find dev_dirname g1 n = none := by
    apply dev_find_none
    intro i e hi hge
    rw [hkey]
    exact hgone i e hi hge
  have hsnone : g1.getD s none = none := by
    rw [hset, getD_set_slot, if_pos ⟨rfl, by rw [hlen]; exact hs⟩]
  have hfree : first_free_slot g1 < MAX_VHOST_DEVICES := by
    rcases first_free_slot_spec g1 with ⟨_, h⟩ | ⟨h, _⟩
    · have := h s hs
      rw [hsnone] at this
      exact absurd this (by simp)
    · exact h
  refine ⟨first_free_slot g1, hfree,
    register_success env dev_dirname g1 d2 n hname2 hfind hfree hsteps, ?_, ?_⟩
  · rw [getD_set_slot, if_pos ⟨rfl, by rw [hlen1]; exact hfree⟩]
  · apply dev_find_first dev_dirname _ n (first_free_slot g1) d2 hfree
    · rw [getD_set_slot, if_pos ⟨rfl, by rw [hlen1]; exact hfree⟩]
    · rw [hkey]; exact hname2
    · intro i e hi hge
      rw [getD_set_slot, if_neg (fun hc => by omega)] at hge
      rw [hkey]
      exact hgone i e (by omega) hge

/-! ## The further claims on concrete inputs -/

/-- C17 at `example_vq` with the completion `(11, 512)`. -/
theorem used_ring_enqueue_frame_witness :
    vring_wf example_vq ∧ example_vq.size = 2 ^ 3 ∧
    (spdk_vhost_vq_used_ring_enqueue example_dev example_vq 11 512).used.ring[
        example_vq.last_used_idx % example_vq.size]? = some (vring_used_elem.mk 11 512) :=
  ⟨by decide, by decide,
    (used_ring_enqueue_frame example_dev example_vq 11 512 3 (by decide) (by decide)).1⟩

/-- One enqueue on `example_vq` evaluated: slot 0 is written, both cursors
become 1 and the notification channel is written once. -/
theorem used_ring_enqueue_example :
    spdk_vhost_vq_used_ring_enqueue example_dev example_vq 11 512 =
      { example_vq with
        used := { flags := 0, idx := 1,
                  ring := vring_used_elem.mk 11 512 ::
                    List.replicate 7 (vring_used_elem.mk 0 0) },
        last_used_idx := 1, callfd := [1] } := by
  decide

/-- C18 at the full queue `example_vq_full`. -/
theorem avail_ring_get_full_ring_witness :
    vring_wf example_vq_full ∧ example_vq_full.size = 2 ^ 3 ∧ 8 < 65536 ∧
    ((example_vq_full.avail.idx : Int) - example_vq_full.last_avail_idx -
      example_vq_full.size) % 65536 = 0 ∧
    spdk_vhost_vq_avail_ring_get example_vq_full (List.replicate 8 0) 8 =
      (example_vq_full, List.replicate 8 0, 0) :=
  ⟨by decide, by decide, by decide, by decide,
    ((avail_ring_get_full_ring example_vq_full (List.replicate 8 0) 8 3
      (by decide) (by decide) (by decide)).1 (by decide)).1⟩

/-- C19 as stated fails on an empty intersection: the allocation returns
core 0 without counting it, and freeing core 0 then takes one controller
away from core 0. -/
theorem allocate_then_free_fallback :
    0b0100 &&& 0b0011 = 0 ∧
    spdk_vhost_allocate_reactor 4 0b0011 [1, 0, 0, 0] 0b0100 = (0, [1, 0, 0, 0]) ∧
    spdk_vhost_free_reactor
      (spdk_vhost_allocate_reactor 4 0b0011 [1, 0, 0, 0] 0b0100).2
      (spdk_vhost_allocate_reactor 4 0b0011 [1, 0, 0, 0] 0b0100).1 = [0, 0, 0, 0] ∧
    spdk_vhost_free_reactor
      (spdk_vhost_allocate_reactor 4 0b0011 [1, 0, 0, 0] 0b0100).2
      (spdk_vhost_allocate_reactor 4 0b0011 [1, 0, 0, 0] 0b0100).1 ≠ [1, 0, 0, 0] := by
  decide

/-- C19 (as amended) at a table of 4 counters. -/
theorem allocate_then_free_witness :
    (∀ x, x ∈ [2, 0, 1, 5] → x < 2 ^ 32) ∧ 0b1100 &&& 0b1111 ≠ 0 ∧
    spdk_vhost_free_reactor
      (spdk_vhost_allocate_reactor 4 0b1111 [2, 0, 1, 5] 0b1100).2
      (spdk_vhost_allocate_reactor 4 0b1111 [2, 0, 1, 5] 0b1100).1 = [2, 0, 1, 5] :=
  ⟨by decide, by decide,
    allocate_then_free 4 0b1111 [2, 0, 1, 5] 0b1100 (by decide) (by decide)⟩

/-- C20 as stated fails when the counters of the candidates have reached
`INT_MAX`: core 1 is the only core of the intersection and lies below the
scan bound, yet the code returns core 0 and increments the counter of
core 0. -/
theorem allocate_reactor_saturated :
    (∃ i, i < min 4 64 ∧ in_mask (0b0010 &&& 0b1111) i = true) ∧
    spdk_vhost_allocate_reactor 4 0b1111 [0, 2147483647, 0, 0] 0b0010 =
      (0, [1, 2147483647, 0, 0]) ∧
    in_mask (0b0010 &&& 0b1111) 0 = false :=
  ⟨⟨1, by decide, by decide⟩, by decide, by decide⟩

/-- C20 (as amended) at a table of 4 counters in which core 1 is saturated
and core 3 is not. -/
theorem allocate_reactor_member_witness :
    [0, 2147483647, 0, 7].length = 4 ∧
    (∃ i, i < min 4 64 ∧ in_mask (0b1010 &&& 0b1111) i = true ∧
      [0, 2147483647, 0, 7].getD i 0 < INT_MAX) ∧
    in_mask (0b1010 &&& 0b1111)
      (spdk_vhost_allocate_reactor 4 0b1111 [0, 2147483647, 0, 7] 0b1010).1 = true :=
  ⟨by decide, ⟨3, by decide, by decide, by decide⟩,
    (allocate_reactor_member 4 0b1111 [0, 2147483647, 0, 7] 0b1010 (by decide)
      ⟨3, by decide, by decide, by decide⟩).1⟩

/-- C16 on four results of `strtoull` with the application core mask `0xff`:
the value 15 with the whole string read is accepted and stored; the value 0,
the value 256 (a bit outside the mask) and a value followed by unread
characters are refused. -/
theorem parse_core_mask_example :
    spdk_vhost_parse_core_mask (fun _ => { value := 15, rest := [], errno := 0 }) 0xff
        (some "f".toList) (some 0) = (0, some 15) ∧
    (spdk_vhost_parse_core_mask (fun _ => { value := 0, rest := [], errno := 0 }) 0xff
        (some "0".toList) (some 0)).1 = -1 ∧
    (spdk_vhost_parse_core_mask (fun _ => { value := 256, rest := [], errno := 0 }) 0xff
        (some "100".toList) (some 0)).1 = -1 ∧
    (spdk_vhost_parse_core_mask (fun _ => { value := 3, rest := ['g'], errno := 0 }) 0xff
        (some "3g".toList) (some 0)).1 = -1 := by
  decide

/-- C11 at the registry holding `vhost.0` in slot 0, reached by one
registration under the base directory `/var/tmp/`. -/
theorem unregister_contract_witness :
    reachable example_dirname example_registry_one ∧ example_dev.lcore = -1 ∧
    example_registry_one.getD 0 none = some example_dev ∧
    ∃ s, s ≤ 0 ∧ example_registry_one.getD s none = some example_dev ∧
      (∀ i, i < s → example_registry_one.getD i none ≠ some example_dev) ∧
      ((∀ u, u < MAX_VHOST_DEVICES → example_registry_one.getD u none = some example_dev →
        u = 0) → s = 0) ∧
      spdk_vhost_dev_unregister 0 example_dirname example_registry_one example_dev =
        some (0, example_registry_one.set s none) ∧
      (example_registry_one.set s none).getD s none = none ∧
      (∀ j, j ≠ s →
        (example_registry_one.set s none).getD j none = example_registry_one.getD j none) ∧
      (example_registry_one.set s none).length = example_registry_one.length :=
  ⟨reachable.register example_env_ok empty_registry _ example_dev 0
      reachable.startup (by decide),
    by decide, by decide,
    (unregister_contract 0 example_dirname example_registry_one example_dev).2.2
      (reachable.register example_env_ok empty_registry _ example_dev 0
        reachable.startup (by decide))
      0 (by decide) (by decide) (by decide) rfl⟩

/-- C12 as stated fails: under the base directory `/var/tmp/` the registry
`example_registry_two` is reachable, the device `/var/tmp/vhost.0` in its
slot 0 is unregistered with return value 0, and registering that same device
again returns `-EEXIST`, because its name is looked up as `vhost.0`, the name
of the device in slot 1. -/
theorem reregister_conflict :
    reachable example_dirname example_registry_two ∧
    example_registry_two.getD 0 none = some example_dev_a ∧
    spdk_vhost_dev_unregister 0 example_dirname example_registry_two example_dev_a =
      some (0, example_registry_two.set 0 none) ∧
    steps_succeed example_env_ok example_dirname (example_dev_a.name.getD []) ∧
    spdk_vhost_dev_register example_env_ok example_dirname
        (example_registry_two.set 0 none) example_dev_a =
      some (-EEXIST, example_registry_two.set 0 none) :=
  ⟨reachable.register example_env_ok (empty_registry.set 0 (some example_dev_a)) _
      example_dev 0
      (reachable.register example_env_ok empty_registry _ example_dev_a 0
        reachable.startup (by decide))
      (by decide),
    by decide, by decide, by decide, by decide⟩

/-- C12 (as amended) at the registry holding `vhost.0` in slot 0, reached by
one registration under the base directory `/var/tmp/`. -/
theorem reregister_after_unregister_witness :
    reachable example_dirname example_registry_one ∧
    example_registry_one.getD 0 none = some example_dev ∧
    find_key example_dirname "vhost.0".toList = "vhost.0".toList ∧
    spdk_vhost_dev_unregister 0 example_dirname example_registry_one example_dev =
      some (0, empty_registry) ∧
    ∃ c, c < MAX_VHOST_DEVICES ∧
      spdk_vhost_dev_register example_env_ok example_dirname empty_registry
          (example_named_dev 7 "vhost.0").1 =
        some (0, empty_registry.set c (some (example_named_dev 7 "vhost.0").1)) ∧
      (empty_registry.set c (some (example_named_dev 7 "vhost.0").1)).getD c none =
        some (example_named_dev 7 "vhost.0").1 ∧
      spdk_vhost_dev_find example_dirname
          (empty_registry.set c (some (example_named_dev 7 "vhost.0").1)) "vhost.0".toList =
        some (example_named_dev 7 "vhost.0").1 :=
  ⟨reachable.register example_env_ok empty_registry _ example_dev 0
      reachable.startup (by decide),
    by decide, by decide, by decide,
    reregister_after_unregister example_dirname example_registry_one empty_registry 0
      example_env_ok example_dev (example_named_dev 7 "vhost.0").1 "vhost.0".toList 0
      (reachable.register example_env_ok empty_registry _ example_dev 0
        reachable.startup (by decide))
      (by decide) (by decide) (by decide) (by decide) (by decide) (by decide) (by decide)⟩

/-- C13 as stated fails when a socket found at the path cannot be removed:
the call then neither returns 0 nor a negative error code, the process ends
in `rte_exit`. -/
theorem register_exits :
    example_env_unlink_fails.stat_ret ≠ -1 ∧ example_env_unlink_fails.is_sock = true ∧
    example_env_unlink_fails.unlink_ret ≠ 0 ∧
    spdk_vhost_dev_register example_env_unlink_fails example_dirname empty_registry
      example_dev = none := by
  decide

/-- C13 (as amended) at a registration into the registry holding `vhost.0`. -/
theorem register_outcomes_witness :
    example_registry_one.length = MAX_VHOST_DEVICES ∧
    spdk_vhost_dev_register example_env_ok example_dirname example_registry_one
        (example_named_dev 1 "vhost.1").1 =
      some (0, example_registry_one.set 1 (some (example_named_dev 1 "vhost.1").1)) ∧
    ((0 : Int) = 0 ∧
      (∃ c, c < MAX_VHOST_DEVICES ∧ example_registry_one.getD c none = none ∧
        (∀ i, i < c → (example_registry_one.getD i none).isSome = true) ∧
        (example_registry_one.set 1 (some (example_named_dev 1 "vhost.1").1)).getD c none =
          some (example_named_dev 1 "vhost.1").1 ∧
        (∀ j, j ≠ c →
          (example_registry_one.set 1 (some (example_named_dev 1 "vhost.1").1)).getD j none =
            example_registry_one.getD j none) ∧
        (example_registry_one.set 1 (some (example_named_dev 1 "vhost.1").1)).length =
          example_registry_one.length) ∧
      example_env_ok.driver_register_ret = 0 ∧ example_env_ok.set_features_ret = 0 ∧
      example_env_ok.disable_features_ret = 0 ∧ example_env_ok.callback_register_ret = 0 ∧
      example_env_ok.driver_start_ret = 0 ∨
      (0 : Int) < 0 ∧
        example_registry_one.set 1 (some (example_named_dev 1 "vhost.1").1) =
          example_registry_one) :=
  ⟨by decide, by decide,
    (register_outcomes example_env_ok example_dirname example_registry_one
      (example_named_dev 1 "vhost.1").1 (by decide)).1 0 _ (by decide)⟩

/-- C14 at the registry with the slots 1 and 4 occupied: the iteration
returns the two devices in slot order and then stops. -/
theorem dev_next_iteration_witness :
    (∀ i j e, i < MAX_VHOST_DEVICES → j < MAX_VHOST_DEVICES →
      example_registry_sparse.getD i none = some e →
      example_registry_sparse.getD j none = some e → i = j) ∧
    dev_iterate example_registry_sparse (MAX_VHOST_DEVICES + 1) none =
      some ((List.range MAX_VHOST_DEVICES).filterMap
        (fun j => example_registry_sparse.getD j none)) ∧
    (List.range MAX_VHOST_DEVICES).filterMap
        (fun j => example_registry_sparse.getD j none) = [example_dev, example_dev_b] :=
  have hu : ∀ i j e, i < MAX_VHOST_DEVICES → j < MAX_VHOST_DEVICES →
      example_registry_sparse.getD i none = some e →
      example_registry_sparse.getD j none = some e → i = j := by
    have hdec : ∀ i, i < MAX_VHOST_DEVICES → ∀ j, j < MAX_VHOST_DEVICES →
        example_registry_sparse.getD i none ≠ none →
        example_registry_sparse.getD i none = example_registry_sparse.getD j none →
        i = j := by
      decide
    intro i j e hi hj h1 h2
    exact hdec i hi j hj (by rw [h1]; simp) (by rw [h1, h2])
  ⟨hu, (dev_next_iteration example_registry_sparse hu).2.2.2, by decide⟩

/-- C15 as stated fails for a string that starts with the base directory: no
slot holds a device named `/var/tmp/vhost.0`, yet `spdk_vhost_dev_find` of
that string returns the device named `vhost.0`. -/
theorem dev_find_by_path :
    (∀ e, e ∈ example_registry_one.filterMap id → e.name ≠ some "/var/tmp/vhost.0".toList) ∧
    spdk_vhost_dev_find example_dirname example_registry_one "/var/tmp/vhost.0".toList =
      some example_dev ∧
    example_dev.name ≠ some "/var/tmp/vhost.0".toList := by
  decide

end Vhost
